import Mathlib

/-!
# Verification of the claude-azure protocol gateway (`src/proxy.ts`)

A shallow embedding of the proxy server that accepts Anthropic-Messages-style
requests and translates them to Azure OpenAI Chat Completions / Responses
requests, dispatches them with endpoint fallback, and translates the reply
(streaming or non-streaming) back into the client's wire format.

The embedding mirrors the TypeScript source function by function:

* `getDeployment`, `getModelName`, `isResponsesApiVersion`,
  `shouldUseResponsesAPI`, `hasToolUsage` — endpoint resolution;
* `convertMessages`, `convertTools`, `buildOpenAIRequest` — forward mapping;
* `convertResponse` — reverse mapping;
* `requestWithFallback` — the dispatcher (backend behaviour of each URL
  candidate is supplied as data);
* `processChunk` / `flushEvents` — the native streaming relay
  (`handleStreaming`), modelled at the level of parsed SSE chunks;
* `respContentEvents` — the synthesized stream
  (`handleStreamingFromNonStreaming`).

JavaScript value semantics that the source relies on (`x || y` with falsy
`0`/`""`/`null`, truthiness of empty arrays, `?.` access, `??`) are embedded
explicitly through the `jsOr*`/`optTruthy` helpers, so that each definition
can be compared clause by clause with the TypeScript it models.

`JSON.stringify` / `JSON.parse` of the JavaScript runtime are modelled by an
executable serializer and recursive-descent parser over a JSON value type
(numbers restricted to integers — the gateway never computes with numeric
payloads, it only serializes and re-parses them).
-/

namespace ClaudeAzure

/-- A JavaScript JSON value (tool inputs, argument payloads). -/
inductive Json where
  | null
  | bool (b : Bool)
  | num (n : Int)
  | str (s : String)
  | arr (elems : List Json)
  | obj (fields : List (String × Json))

/-- JavaScript truthiness of a JSON value: `null`, `false`, `0` and the
empty string are falsy; every array and object is truthy. -/
def jsTruthy : Json → Bool
  | .null => false
  | .bool b => b
  | .num n => n != 0
  | .str s => s != ""
  | .arr _ => true
  | .obj _ => true

/-- The JavaScript idiom `o || d` for an optional string field: a missing
or empty string falls back to the default. -/
def jsOrStr (o : Option String) (d : String) : String :=
  match o with
  | some s => if s = "" then d else s
  | none => d

/-- The JavaScript idiom `s || d` for a string already known to be present. -/
def jsOrS (s d : String) : String := if s = "" then d else s

/-- The JavaScript idiom `o || d` for an optional number field: a missing
field or the (falsy) value `0` falls back to the default. -/
def jsOrNat (o : Option Nat) (d : Nat) : Nat :=
  match o with
  | some n => if n = 0 then d else n
  | none => d

/-- The JavaScript idiom `v || d` on a JSON value. -/
def jsOrJson (v d : Json) : Json := if jsTruthy v then v else d

/-- Truthiness of an optional string (`undefined` and `""` are falsy). -/
def optTruthy (o : Option String) : Bool :=
  match o with
  | some s => s != ""
  | none => false

/-! ## The JavaScript JSON runtime: `JSON.stringify` -/

/-- Decimal digit character for `d < 10`. -/
def decChar (d : Nat) : Char := Char.ofNat (48 + d)

/-- Decimal representation of a natural number, most significant digit
first — the digit run `JSON.stringify` emits for a non-negative integer. -/
def natChars (m : Nat) : List Char :=
  if m = 0 then ['0'] else (Nat.digits 10 m).reverse.map decChar

/-- Decimal representation of an integer. -/
def intChars (n : Int) : List Char :=
  if n < 0 then '-' :: natChars n.natAbs else natChars n.natAbs

/-- Lowercase hexadecimal digit character for `d < 16` (as emitted by
`JSON.stringify` in `\u00XX` escapes). -/
def hexChar (d : Nat) : Char :=
  if d < 10 then Char.ofNat (48 + d) else Char.ofNat (87 + d)

/-- How `JSON.stringify` escapes one character of a string: quote and
backslash get a backslash escape, the five named control characters get
their two-character forms, any other control character below `0x20`
becomes a `\u00XX` escape, and everything else is copied unchanged. -/
def escapeChar (c : Char) : List Char :=
  if c = '\"' then ['\\', '\"']
  else if c = '\\' then ['\\', '\\']
  else if c = '\n' then ['\\', 'n']
  else if c = '\r' then ['\\', 'r']
  else if c = '\t' then ['\\', 't']
  else if c.toNat = 8 then ['\\', 'b']
  else if c.toNat = 12 then ['\\', 'f']
  else if c.toNat < 32 then ['\\', 'u', '0', '0', hexChar (c.toNat / 16), hexChar (c.toNat % 16)]
  else [c]

/-- Escape a whole character sequence. -/
def escapeChars (cs : List Char) : List Char := cs.flatMap escapeChar

/-- The spelling of the `null` keyword. -/
def nullChars : List Char := "null".data

/-- The spelling of the `true` keyword. -/
def trueChars : List Char := "true".data

/-- The spelling of the `false` keyword. -/
def falseChars : List Char := "false".data

mutual

/-- `JSON.stringify` with no spacing, producing the character sequence. -/
def stringifyChars : Json → List Char
  | .null => nullChars
  | .bool true => trueChars
  | .bool false => falseChars
  | .num n => intChars n
  | .str s => '\"' :: (escapeChars s.data ++ ['\"'])
  | .arr l => '[' :: (stringifyArr l ++ [']'])
  | .obj f => '\x7b' :: (stringifyObj f ++ ['\x7d'])

/-- Comma-separated serialization of array elements. -/
def stringifyArr : List Json → List Char
  | [] => []
  | [v] => stringifyChars v
  | v :: vs => stringifyChars v ++ ',' :: stringifyArr vs

/-- Comma-separated serialization of object fields. -/
def stringifyObj : List (String × Json) → List Char
  | [] => []
  | [(k, v)] => '\"' :: (escapeChars k.data ++ '\"' :: ':' :: stringifyChars v)
  | (k, v) :: fs =>
    '\"' :: (escapeChars k.data ++ '\"' :: ':' :: stringifyChars v) ++ ',' :: stringifyObj fs

end

/-- `JSON.stringify` as a string-valued function. -/
def stringify (j : Json) : String := String.mk (stringifyChars j)

/-! ## The JavaScript JSON runtime: `JSON.parse` -/

/-- JSON insignificant whitespace. -/
def isJsonWs (c : Char) : Bool := c = ' ' || c = '\t' || c = '\n' || c = '\r'

/-- Skip insignificant whitespace. -/
def skipWs (cs : List Char) : List Char := cs.dropWhile isJsonWs

/-- Value of a hexadecimal digit character. -/
def hexVal (c : Char) : Option Nat :=
  if '0' ≤ c ∧ c ≤ '9' then some (c.toNat - 48)
  else if 'a' ≤ c ∧ c ≤ 'f' then some (c.toNat - 87)
  else if 'A' ≤ c ∧ c ≤ 'F' then some (c.toNat - 55)
  else none

/-- Decode a two-character escape. -/
def escDecode (c : Char) : Option Char :=
  if c = '\"' then some '\"'
  else if c = '\\' then some '\\'
  else if c = '/' then some '/'
  else if c = 'n' then some '\n'
  else if c = 'r' then some '\r'
  else if c = 't' then some '\t'
  else if c = 'b' then some (Char.ofNat 8)
  else if c = 'f' then some (Char.ofNat 12)
  else none

/-- Parse the body of a JSON string (after the opening quote), returning
the decoded characters and the rest of the input after the closing quote. -/
def parseStringChars : List Char → Option (List Char × List Char)
  | [] => none
  | c :: rest =>
    if c = '\"' then some ([], rest)
    else if c = '\\' then
      match rest with
      | [] => none
      | e :: rest2 =>
        if e = 'u' then
          match rest2 with
          | h1 :: h2 :: h3 :: h4 :: rest3 =>
            match hexVal h1, hexVal h2, hexVal h3, hexVal h4 with
            | some a, some b, some c2, some d =>
              match parseStringChars rest3 with
              | some (s, r) => some (Char.ofNat (((a * 16 + b) * 16 + c2) * 16 + d) :: s, r)
              | none => none
            | _, _, _, _ => none
          | _ => none
        else
          match escDecode e with
          | some d =>
            match parseStringChars rest2 with
            | some (s, r) => some (d :: s, r)
            | none => none
          | none => none
    else if c.toNat < 32 then none
    else
      match parseStringChars rest with
      | some (s, r) => some (c :: s, r)
      | none => none

/-- Value of a decimal digit character. -/
def digitVal (c : Char) : Nat := c.toNat - 48

/-- Parse a run of decimal digits. -/
def parseNatNum (cs : List Char) : Option (Nat × List Char) :=
  let ds := cs.takeWhile Char.isDigit
  let rest := cs.dropWhile Char.isDigit
  if ds = [] then none
  else some (ds.foldl (fun acc c => acc * 10 + digitVal c) 0, rest)

mutual

/-- Recursive-descent JSON value parser (fuel-indexed): dispatch on the
first significant character, then read the corresponding literal form. -/
def parseValue : Nat → List Char → Option (Json × List Char)
  | 0, _ => none
  | fuel + 1, cs =>
    match skipWs cs with
    | [] => none
    | c :: rest =>
      if c.isDigit then
        match parseNatNum (c :: rest) with
        | some (m, rest2) => some (.num (m : Int), rest2)
        | none => none
      else if c = '-' then
        match parseNatNum rest with
        | some (m, rest2) => some (.num (-(m : Int)), rest2)
        | none => none
      else if c = '\"' then
        match parseStringChars rest with
        | some (s, rest2) => some (.str (String.mk s), rest2)
        | none => none
      else if c = '[' then
        match skipWs rest with
        | ']' :: rest2 => some (.arr [], rest2)
        | cs2 =>
          match parseItems fuel cs2 with
          | some (vs, rest2) => some (.arr vs, rest2)
          | none => none
      else if c = '\x7b' then
        match skipWs rest with
        | '\x7d' :: rest2 => some (.obj [], rest2)
        | cs2 =>
          match parseFields fuel cs2 with
          | some (fs, rest2) => some (.obj fs, rest2)
          | none => none
      else
        match c :: rest with
        | 'n' :: 'u' :: 'l' :: 'l' :: r => some (.null, r)
        | 't' :: 'r' :: 'u' :: 'e' :: r => some (.bool true, r)
        | 'f' :: 'a' :: 'l' :: 's' :: 'e' :: r => some (.bool false, r)
        | _ => none

/-- Parse one or more comma-separated array elements and the closing
bracket. -/
def parseItems : Nat → List Char → Option (List Json × List Char)
  | 0, _ => none
  | fuel + 1, cs =>
    match parseValue fuel cs with
    | some (v, r) =>
      match skipWs r with
      | ',' :: r2 =>
        match parseItems fuel r2 with
        | some (vs, r3) => some (v :: vs, r3)
        | none => none
      | ']' :: r2 => some ([v], r2)
      | _ => none
    | none => none

/-- Parse one or more comma-separated object fields and the closing
brace. -/
def parseFields : Nat → List Char → Option (List (String × Json) × List Char)
  | 0, _ => none
  | fuel + 1, cs =>
    match skipWs cs with
    | '\"' :: r =>
      match parseStringChars r with
      | some (k, r2) =>
        match skipWs r2 with
        | ':' :: r3 =>
          match parseValue fuel r3 with
          | some (v, r4) =>
            match skipWs r4 with
            | ',' :: r5 =>
              match parseFields fuel r5 with
              | some (fs, r6) => some ((String.mk k, v) :: fs, r6)
              | none => none
            | '\x7d' :: r5 => some ([(String.mk k, v)], r5)
            | _ => none
          | none => none
        | _ => none
      | none => none
    | _ => none

end

/-- `JSON.parse`: parse a complete JSON document (possibly surrounded by
whitespace); `none` models a thrown `SyntaxError`. -/
def parseJson (s : String) : Option Json :=
  match parseValue (s.length + 1) s.data with
  | some (j, rest) => if skipWs rest = [] then some j else none
  | none => none

mutual

/-- Fuel that suffices for `parseValue` to read back the serialization. -/
def fuelOf : Json → Nat
  | .null => 1
  | .bool _ => 1
  | .num _ => 1
  | .str _ => 1
  | .arr l => 1 + fuelArr l
  | .obj f => 1 + fuelObj f

/-- Fuel that suffices for `parseItems` on serialized array elements. -/
def fuelArr : List Json → Nat
  | [] => 1
  | v :: vs => 1 + max (fuelOf v) (fuelArr vs)

/-- Fuel that suffices for `parseFields` on serialized object fields. -/
def fuelObj : List (String × Json) → Nat
  | [] => 1
  | (_, v) :: fs => 1 + max (fuelOf v) (fuelObj fs)

end

/-- The first character, when present, is not a decimal digit. -/
def headNotDigit : List Char → Bool
  | [] => true
  | c :: _ => !c.isDigit

/-! ## Configuration and endpoint resolution (`config.ts`, `proxy.ts`) -/

/-- Whether `sub` occurs as a contiguous run inside `cs`
(JavaScript `String.prototype.includes`). -/
def containsSeq : List Char → List Char → Bool
  | [], sub => sub.isEmpty
  | c :: cs, sub => sub.isPrefixOf (c :: cs) || containsSeq cs sub

/-- JavaScript `s.includes(sub)`. -/
def jsIncludes (s sub : String) : Bool := containsSeq s.data sub.data

/-- ASCII lowercasing of one character (the model of `toLowerCase` on the
model names the gateway compares; all comparisons are ASCII). -/
def lowerChar (c : Char) : Char :=
  if 65 ≤ c.toNat ∧ c.toNat ≤ 90 then Char.ofNat (c.toNat + 32) else c

/-- `s.toLowerCase()`. -/
def strToLower (s : String) : String := String.mk (s.data.map lowerChar)

/-- The three size tiers of `AzureConfig.deployments`. -/
structure Deployments where
  opus : Option String := none
  sonnet : Option String := none
  haiku : Option String := none

/-- `AzureConfig` from `config.ts` (optional string fields model the
optional TypeScript fields). -/
structure AzureConfig where
  endpoint : String
  apiKey : String
  apiVersion : String
  deployments : Deployments
  router : Option String := none
  reasoningEffort : Option String := none
  reasoningModel : Option String := none

/-- `isResponsesApiVersion` from `proxy.ts`. -/
def isResponsesApiVersion (apiVersion : String) : Bool :=
  apiVersion.startsWith "2025-04-01" || apiVersion.startsWith "2024-08-01"

/-- `shouldUseResponsesAPI` from `proxy.ts`: `!!config.router ||
isResponsesApiVersion(config.apiVersion)`. -/
def shouldUseResponsesAPI (config : AzureConfig) : Bool :=
  optTruthy config.router || isResponsesApiVersion config.apiVersion

/-- `getDeployment` from `proxy.ts`: a (truthy) router deployment wins for
every model; otherwise case-insensitive substring tiering with documented
defaults. -/
def getDeployment (model : String) (config : AzureConfig) : String :=
  let tiered :=
    let lower := strToLower model
    if jsIncludes lower "opus" then jsOrStr config.deployments.opus "gpt-4o"
    else if jsIncludes lower "haiku" then jsOrStr config.deployments.haiku "gpt-4o-mini"
    else jsOrStr config.deployments.sonnet "gpt-4o"
  match config.router with
  | some r => if r = "" then tiered else r
  | none => tiered

/-- `getModelName` from `proxy.ts`: the payload model field is the router
deployment when a router is configured, else the resolved deployment. -/
def getModelName (model : String) (config : AzureConfig) : String :=
  match config.router with
  | some r => if r = "" then getDeployment model config else r
  | none => getDeployment model config

/-! ## Client-format (Anthropic Messages) request model -/

/-- An inline image source (`block.source`); a missing field is modelled
as the empty string. -/
structure ImageSource where
  type : String := ""
  media_type : String := ""
  data : String := ""

/-- One item of an array-valued `tool_result.content`: either a plain
string or an object whose `text` field is consulted. -/
inductive TRItem where
  | strItem (s : String)
  | objItem (text : Option String)

/-- The `content` of a `tool_result` block: a string, an array of items,
or any other JSON value (serialized on use). -/
inductive TRContent where
  | str (s : String)
  | arr (items : List TRItem)
  | other (j : Json)

/-- A `tool_use` content block. -/
structure ToolUseBlock where
  id : String := ""
  name : String := ""
  input : Json := .null

/-- A `tool_result` content block. -/
structure ToolResultBlock where
  tool_use_id : String := ""
  content : TRContent := .str ""
  is_error : Bool := false

/-- One client-format content block; `other` models a block of an
unrecognized `type` (skipped everywhere). -/
inductive ClaudeBlock where
  | text (t : String)
  | image (source : ImageSource)
  | toolUse (tb : ToolUseBlock)
  | toolResult (tb : ToolResultBlock)
  | other (ty : String)

/-- The `block.type || ''` string the source dispatches on. -/
def blockType : ClaudeBlock → String
  | .text _ => "text"
  | .image _ => "image"
  | .toolUse _ => "tool_use"
  | .toolResult _ => "tool_result"
  | .other ty => ty

/-- A message's `content`: string, array of blocks, or any other runtime
value (skipped by the converter). -/
inductive ClaudeContent where
  | str (s : String)
  | blocks (l : List ClaudeBlock)
  | other

/-- One client-format message. -/
structure ClaudeMessage where
  role : Option String := none
  content : ClaudeContent

/-- The optional `system` field: a string or a block sequence. -/
inductive SystemField where
  | str (s : String)
  | blocks (l : List ClaudeBlock)

/-- One client-format tool declaration (with the possible nested
`function` fields probed by `convertTools`). -/
structure ClaudeTool where
  type : Option String := none
  name : Option String := none
  description : Option String := none
  input_schema : Option Json := none
  fnName : Option String := none
  fnDescription : Option String := none
  fnParameters : Option Json := none

/-- The client-format request body. -/
structure ClaudeReq where
  model : Option String := none
  messages : List ClaudeMessage := []
  system : Option SystemField := none
  max_tokens : Option Nat := none
  temperature : Option Rat := none
  tools : Option (List ClaudeTool) := none
  stream : Bool := false

/-- `hasToolUsage` from `proxy.ts`: any `tool_use` or `tool_result` block
in any array-content message. -/
def hasToolUsage (messages : List ClaudeMessage) : Bool :=
  messages.any (fun msg =>
    match msg.content with
    | .blocks content =>
      content.any (fun block =>
        blockType block == "tool_use" || blockType block == "tool_result")
    | _ => false)

/-! ## Backend-format (OpenAI) request model and forward mapping -/

/-- One multimodal part of a backend message (`{type, text}` or
`{type, image_url: {url}}`). -/
inductive OAIPart where
  | textPart (type : String) (text : String)
  | imagePart (type : String) (url : String)

/-- Backend message content: a string, an array of parts, or `null`. -/
inductive OAIContent where
  | str (s : String)
  | parts (l : List OAIPart)
  | nullContent

/-- A backend `tool_calls` entry (`type` is always `"function"`). -/
structure OAIToolCall where
  id : String
  name : String
  arguments : String

/-- One backend chat message. -/
structure OAIMessage where
  role : String
  content : OAIContent
  tool_calls : Option (List OAIToolCall) := none
  tool_call_id : Option String := none

/-- Text of a part (always a `textPart` at the call sites). -/
def partText : OAIPart → String
  | .textPart _ t => t
  | .imagePart _ _ => ""

/-- `textParts.map((p) => p.text).join(' ').trim()`. -/
def joinedText (textParts : List OAIPart) : String :=
  (String.intercalate " " (textParts.map partText)).trim

/-- The text parts collected from a block sequence, with the content type
appropriate to the targeted backend shape. -/
def textPartsOf (content : List ClaudeBlock) (useResponsesAPI : Bool) (role : String) :
    List OAIPart :=
  content.filterMap (fun block =>
    match block with
    | .text t =>
      let textType := if useResponsesAPI then
          (if role = "assistant" then "output_text" else "input_text")
        else "text"
      some (.textPart textType t)
    | _ => none)

/-- The image parts collected from a block sequence (only `base64`
sources are kept). -/
def imagePartsOf (content : List ClaudeBlock) (useResponsesAPI : Bool) : List OAIPart :=
  content.filterMap (fun block =>
    match block with
    | .image source =>
      if source.type = "base64" then
        let mediaType := jsOrS source.media_type "image/png"
        let imageType := if useResponsesAPI then "input_image" else "image_url"
        some (.imagePart imageType ("data:" ++ mediaType ++ ";base64," ++ source.data))
      else none
    | _ => none)

/-- Text of one item of an array-valued tool-result content. -/
def trItemText : TRItem → String
  | .strItem s => s
  | .objItem text => jsOrStr text ""

/-- `result.content || ''`, joined/serialized exactly as in the source:
arrays join their items' text with newlines, non-string values are
`JSON.stringify`ed (after the falsy check). -/
def toolResultText : TRContent → String
  | .str s => s
  | .arr items => String.intercalate "\n" (items.map trItemText)
  | .other j => if jsTruthy j then stringify j else ""

/-- `content.filter((b) => b.type === 'tool_use')` of the forward
mapping. -/
def toolUseBlocksOf (content : List ClaudeBlock) : List ToolUseBlock :=
  content.filterMap (fun b =>
    match b with | .toolUse tb => some tb | _ => none)

/-- The translation of one client message (the body of the `for` loop of
`convertMessages`); a message may contribute zero, one, or several
backend entries. -/
def convertOneMessage (msg : ClaudeMessage) (useResponsesAPI : Bool) : List OAIMessage :=
  let role := jsOrStr msg.role "user"
  match msg.content with
  | .str content => [{ role := role, content := .str content }]
  | .other => []
  | .blocks content =>
    let textParts := textPartsOf content useResponsesAPI role
    let imageParts := imagePartsOf content useResponsesAPI
    let toolUseBlocks := toolUseBlocksOf content
    let toolResultBlocks := content.filterMap (fun b =>
      match b with | .toolResult tb => some tb | _ => none)
    if role = "assistant" ∧ toolUseBlocks.length > 0 then
      if useResponsesAPI then
        let toolText := String.intercalate " " (toolUseBlocks.map (fun tb =>
          "[Tool: " ++ tb.name ++ ", Input: " ++ stringify tb.input ++ "]"))
        let textContent := joinedText textParts
        let combinedContent := String.intercalate " "
          ([textContent, toolText].filter (fun s => s != ""))
        [{ role := "assistant", content := .str combinedContent }]
      else
        let toolCalls := toolUseBlocks.map (fun tb =>
          { id := tb.id, name := tb.name,
            arguments := stringify (jsOrJson tb.input (Json.obj [])) : OAIToolCall })
        let textContent := joinedText textParts
        [{ role := "assistant",
           content := if textContent = "" then .nullContent else .str textContent,
           tool_calls := some toolCalls }]
    else if toolResultBlocks.length > 0 then
      if useResponsesAPI then
        let toolResults := String.intercalate " " (toolResultBlocks.map (fun r =>
          "[Tool Result: " ++ (if r.is_error then "Error: " else "")
            ++ toolResultText r.content ++ "]"))
        let textContent := joinedText textParts
        let combinedContent := String.intercalate " "
          ([textContent, toolResults].filter (fun s => s != ""))
        [{ role := "user", content := .str combinedContent }]
      else
        (toolResultBlocks.map (fun r =>
          let resultContent := toolResultText r.content
          { role := "tool",
            content := .str (if r.is_error then "Error: " ++ resultContent else resultContent),
            tool_call_id := some r.tool_use_id : OAIMessage }))
        ++ (if textParts.length > 0 ∧ joinedText textParts ≠ "" then
              [{ role := "user", content := .str (joinedText textParts) }]
            else [])
    else if textParts.length > 0 ∨ imageParts.length > 0 then
      let combined := textParts ++ imageParts
      match combined with
      | [OAIPart.textPart ty t] =>
        if ty = "text" then [{ role := role, content := .str t }]
        else [{ role := role, content := .parts combined }]
      | _ => [{ role := role, content := .parts combined }]
    else []

/-- The leading `system` entry of `convertMessages` (note the JavaScript
truthiness: an empty system string adds nothing, an empty block array
adds an empty system entry). -/
def systemEntries (system : Option SystemField) : List OAIMessage :=
  match system with
  | none => []
  | some (.str s) =>
    if s = "" then [] else [{ role := "system", content := .str s }]
  | some (.blocks l) =>
    let text := String.intercalate " "
      (((l.filter (fun b => blockType b == "text")).map (fun b =>
        match b with
        | .text t => t
        | _ => "")))
    [{ role := "system", content := .str text }]

/-- `convertMessages` from `proxy.ts`. -/
def convertMessages (claudeMessages : List ClaudeMessage) (system : Option SystemField)
    (useResponsesAPI : Bool) : List OAIMessage :=
  systemEntries system
    ++ claudeMessages.flatMap (fun msg => convertOneMessage msg useResponsesAPI)

/-- `o || d` on an optional JSON value. -/
def jsOrJsonOpt (o : Option Json) (d : Json) : Json :=
  match o with
  | some v => if jsTruthy v then v else d
  | none => d

/-- A rewritten backend tool declaration. -/
inductive OAITool where
  | passthrough (t : ClaudeTool)
  | responsesShape (name : String) (description : String) (parameters : Json)
  | chatShape (name : String) (description : String) (parameters : Json)

/-- `convertTools` from `proxy.ts`. -/
def convertTools (claudeTools : List ClaudeTool) (useResponsesAPI : Bool) : List OAITool :=
  let defaultParams : Json := .obj [("type", .str "object"), ("properties", .obj [])]
  claudeTools.map (fun tool =>
    if tool.type = some "function" ∧ useResponsesAPI = false then .passthrough tool
    else if useResponsesAPI then
      .responsesShape (jsOrStr tool.name (jsOrStr tool.fnName ""))
        (jsOrStr tool.description (jsOrStr tool.fnDescription ""))
        (jsOrJsonOpt tool.input_schema (jsOrJsonOpt tool.fnParameters defaultParams))
    else
      .chatShape (jsOrStr tool.name "") (jsOrStr tool.description "")
        (jsOrJsonOpt tool.input_schema defaultParams))

/-- The outbound backend request body (`input`/`max_output_tokens` for the
Responses shape, `messages`/`max_completion_tokens` for Chat Completions;
`reasoning` carries the `effort` of the nested Responses object). -/
structure OpenAIReq where
  model : String
  stream : Bool
  messages : Option (List OAIMessage) := none
  input : Option (List OAIMessage) := none
  max_completion_tokens : Option Nat := none
  max_output_tokens : Option Nat := none
  temperature : Option Rat := none
  tools : Option (List OAITool) := none
  reasoning_effort : Option String := none
  reasoning : Option String := none

/-- The base record `buildOpenAIRequest` constructs before the optional
fields: model, stream, the converted messages (with Responses-shape null
content replaced by empty strings) under the field name of the targeted
shape, and the clamped token limit under its field name. -/
def coreRequest (claudeReq : ClaudeReq) (config : AzureConfig)
    (useResponsesAPI : Bool) : OpenAIReq :=
  let maxTokens := jsOrNat claudeReq.max_tokens 64000
  let messages0 := convertMessages claudeReq.messages claudeReq.system useResponsesAPI
  let messages := if useResponsesAPI then
      messages0.map (fun msg =>
        match msg.content with
        | .nullContent => { msg with content := .str "" }
        | _ => msg)
    else messages0
  if useResponsesAPI then
    { model := getModelName (jsOrStr claudeReq.model "") config
      stream := claudeReq.stream
      input := some messages
      max_output_tokens := some (max 4096 (min maxTokens 128000)) }
  else
    { model := getModelName (jsOrStr claudeReq.model "") config
      stream := claudeReq.stream
      messages := some messages
      max_completion_tokens := some (max 4096 (min maxTokens 128000)) }

/-- The `claudeReq.temperature !== undefined` block. -/
def applyTemperature (req : OpenAIReq) (temperature : Option Rat) : OpenAIReq :=
  match temperature with
  | some t => { req with temperature := some t }
  | none => req

/-- The `claudeReq.tools && claudeReq.tools.length > 0` block. -/
def applyTools (req : OpenAIReq) (tools : Option (List ClaudeTool))
    (useResponsesAPI : Bool) : OpenAIReq :=
  match tools with
  | some ts =>
    if ts.length > 0 then { req with tools := some (convertTools ts useResponsesAPI) }
    else req
  | none => req

/-- The reasoning-effort block: attach only when configured, and only
when the resolved model matches the configured reasoning model
(case-insensitively) or a router is in effect, or — with no configured
reasoning model — the resolved model contains `gpt-5`; the field name
differs by shape. -/
def applyReasoning (req : OpenAIReq) (config : AzureConfig)
    (useResponsesAPI : Bool) : OpenAIReq :=
  match config.reasoningEffort with
  | some reasoningEffort =>
    if reasoningEffort ≠ "" then
      let modelName := strToLower req.model
      let targetModel := config.reasoningModel.map strToLower
      let shouldApplyReasoning :=
        (optTruthy targetModel
          && (modelName == targetModel.getD "" || optTruthy config.router))
        || (!optTruthy targetModel && jsIncludes modelName "gpt-5")
      if shouldApplyReasoning then
        if useResponsesAPI then { req with reasoning := some reasoningEffort }
        else { req with reasoning_effort := some reasoningEffort }
      else req
    else req
  | none => req

/-- `buildOpenAIRequest` from `proxy.ts`: the base record, then the
temperature, tools, and reasoning-effort blocks in source order. -/
def buildOpenAIRequest (claudeReq : ClaudeReq) (config : AzureConfig)
    (useResponsesAPI : Bool) : OpenAIReq :=
  applyReasoning
    (applyTools
      (applyTemperature (coreRequest claudeReq config useResponsesAPI) claudeReq.temperature)
      claudeReq.tools useResponsesAPI)
    config useResponsesAPI

/-! ## Backend response model and reverse mapping (`convertResponse`) -/

/-- One backend `tool_calls` entry of a non-streaming reply
(`tc.id`, `tc.function?.name`, `tc.function?.arguments`). -/
structure OAIRespToolCall where
  id : Option String := none
  fnName : Option String := none
  fnArguments : Option String := none

/-- The `message` object of a backend choice. -/
structure OAIRespMessage where
  content : Option String := none
  tool_calls : Option (List OAIRespToolCall) := none

/-- One entry of the backend `choices` array. -/
structure OAIChoice where
  message : Option OAIRespMessage := none
  finish_reason : Option String := none

/-- The backend `usage` object, tolerant of either field naming. -/
structure OAIUsage where
  prompt_tokens : Option Nat := none
  completion_tokens : Option Nat := none
  input_tokens : Option Nat := none
  output_tokens : Option Nat := none

/-- One inner block of a message-like item of the Responses `output`
array, carrying every field the source probes. -/
structure OutputBlock where
  type : Option String := none
  id : Option String := none
  name : Option String := none
  tool_name : Option String := none
  fnName : Option String := none
  arguments : Option Json := none
  tool_arguments : Option Json := none
  fnArguments : Option Json := none
  input : Option Json := none
  text : Option String := none

/-- The `content` of an `output` item: a string, an array of blocks,
absent, or any other runtime value. -/
inductive OutputItemContent where
  | str (s : String)
  | blocks (l : List OutputBlock)
  | absent
  | otherContent

/-- One item of the Responses-layout `output` array. -/
structure OutputItem where
  type : Option String := none
  id : Option String := none
  name : Option String := none
  tool_name : Option String := none
  fnName : Option String := none
  arguments : Option Json := none
  tool_arguments : Option Json := none
  fnArguments : Option Json := none
  input : Option Json := none
  content : OutputItemContent := .absent

/-- View of an `output` item as a block (the tool-call probing accesses
the same fields on either). -/
def OutputItem.toBlock (it : OutputItem) : OutputBlock :=
  { type := it.type, id := it.id, name := it.name, tool_name := it.tool_name,
    fnName := it.fnName, arguments := it.arguments, tool_arguments := it.tool_arguments,
    fnArguments := it.fnArguments, input := it.input }

/-- A backend non-streaming response in either layout. -/
structure OpenAIResp where
  id : Option String := none
  choices : List OAIChoice := []
  usage : Option OAIUsage := none
  output_text : Option String := none
  output : Option (List OutputItem) := none

/-- A content block of the client-format response. -/
inductive CRBlock where
  | text (t : String)
  | toolUse (id : String) (name : String) (input : Json)

/-- Usage counters of the client-format response. -/
structure CRUsage where
  input_tokens : Nat
  output_tokens : Nat

/-- The client-format (Anthropic Messages) response object. -/
structure ClaudeResponse where
  id : String
  type : String
  role : String
  content : List CRBlock
  model : String
  stop_reason : String
  stop_sequence : Option String
  usage : CRUsage

/-- The fixed `stopReasonMap` lookup with its `|| 'end_turn'` fallback. -/
def mapStopReason (finishReason : String) : String :=
  if finishReason = "stop" then "end_turn"
  else if finishReason = "length" then "max_tokens"
  else if finishReason = "tool_calls" then "tool_use"
  else if finishReason = "content_filter" then "end_turn"
  else "end_turn"

/-- `extractToolCall` from `proxy.ts` (fields probed in source order,
with JavaScript `||` chains). -/
def extractToolCall (item : OutputBlock) : Option (String × String × Json) :=
  if item.type = some "tool_call" ∨ item.type = some "function_call" then
    some (jsOrStr item.id "",
      jsOrStr item.name (jsOrStr item.tool_name (jsOrStr item.fnName "")),
      jsOrJsonOpt item.arguments (jsOrJsonOpt item.tool_arguments
        (jsOrJsonOpt item.fnArguments (Json.str "\x7b\x7d"))))
  else if item.type = some "tool" ∧ optTruthy item.name then
    some (jsOrStr item.id "", jsOrStr item.name "",
      jsOrJsonOpt item.arguments (jsOrJsonOpt item.input (Json.str "\x7b\x7d")))
  else none

/-- The `pushToolUse` input normalization: a string argument is parsed as
JSON (empty object on failure), an object or array is used as is, and
anything else becomes an empty object. -/
def parseToolInput (args : Json) : Json :=
  match args with
  | .str s => (parseJson s).getD (Json.obj [])
  | .arr l => .arr l
  | .obj f => .obj f
  | _ => Json.obj []

/-- The `a || b || 0` usage chain (`0` is falsy). -/
def jsOrNat2 (a b : Option Nat) : Nat := jsOrNat a (jsOrNat b 0)

/-- The `a ?? b ?? 0` usage chain (only missing falls through). -/
def nullishNat2 (a b : Option Nat) : Nat := a.getD (b.getD 0)

/-- `convertResponse` from `proxy.ts`: the choice-based layout is probed
first; otherwise the `output_text` / `output`-array layout is scanned. -/
def convertResponse (openaiRes : OpenAIResp) (model : String) (now : Nat) : ClaudeResponse :=
  if openaiRes.choices.length ≠ 0 then
    let choice := openaiRes.choices.headD {}
    let message := choice.message.getD {}
    let content : List CRBlock :=
      (match message.content with
       | some c => if c ≠ "" then [.text c] else []
       | none => [])
      ++ (match message.tool_calls with
          | some tcs => tcs.map (fun tc =>
              .toolUse (jsOrStr tc.id "") (jsOrStr tc.fnName "")
                ((parseJson (jsOrStr tc.fnArguments "\x7b\x7d")).getD (Json.obj [])))
          | none => [])
    let finishReason := jsOrStr choice.finish_reason "stop"
    { id := jsOrStr openaiRes.id ("msg_" ++ toString now),
      type := "message", role := "assistant", content := content, model := model,
      stop_reason := mapStopReason finishReason, stop_sequence := none,
      usage := {
        input_tokens := jsOrNat2 (openaiRes.usage.bind (fun u => u.prompt_tokens))
          (openaiRes.usage.bind (fun u => u.input_tokens)),
        output_tokens := jsOrNat2 (openaiRes.usage.bind (fun u => u.completion_tokens))
          (openaiRes.usage.bind (fun u => u.output_tokens)) } }
  else
    let textParts : List String :=
      (match openaiRes.output_text with
       | some s => [s]
       | none => [])
      ++ (match openaiRes.output with
          | some output => output.flatMap (fun item =>
              if item.type = some "message" then
                match item.content with
                | .str s => [s]
                | .blocks blocks => blocks.filterMap (fun block =>
                    if block.type = some "output_text" ∨ block.type = some "text" then
                      some (jsOrStr block.text "")
                    else none)
                | _ => []
              else [])
          | none => [])
    let toolUses : List CRBlock :=
      (match openaiRes.output with
       | some output => output.flatMap (fun item =>
           if item.type = some "message" then
             match item.content with
             | .blocks blocks => blocks.filterMap (fun block =>
                 (extractToolCall block).map (fun tc =>
                   CRBlock.toolUse (jsOrS tc.1 "") (jsOrS tc.2.1 "") (parseToolInput tc.2.2)))
             | _ => []
           else
             match extractToolCall item.toBlock with
             | some tc => [CRBlock.toolUse (jsOrS tc.1 "") (jsOrS tc.2.1 "") (parseToolInput tc.2.2)]
             | none => [])
       | none => [])
    let content :=
      (if textParts.length > 0 then [CRBlock.text (String.join textParts)] else [])
      ++ toolUses
    let usage := openaiRes.usage.getD {}
    { id := jsOrStr openaiRes.id ("msg_" ++ toString now),
      type := "message", role := "assistant", content := content, model := model,
      stop_reason := "end_turn", stop_sequence := none,
      usage := { input_tokens := nullishNat2 usage.input_tokens usage.prompt_tokens,
                 output_tokens := nullishNat2 usage.output_tokens usage.completion_tokens } }

/-! ## Request dispatcher with fallback (`requestWithFallback`) -/

/-- The backend behaviour of one URL candidate: an HTTP response (its
status, raw body, and — for 200 bodies — the parsed response object), or
a transport-level failure. -/
inductive Outcome where
  | resp (status : Nat) (body : String) (data : OpenAIResp)
  | err (msg : String)

/-- One entry of the ordered candidate list: the URL path and the
behaviour the backend exhibits for it. -/
structure Candidate where
  path : String
  outcome : Outcome

/-- The per-attempt payload adaptation of `requestWithFallback`: when the
candidate is a Chat Completions URL and the payload is in Responses
shape (`input` present), swap the prompt field and the token-limit field
names without mutating the shared payload. -/
def adaptPayload (path : String) (payload : OpenAIReq) : OpenAIReq :=
  if jsIncludes path "/chat/completions" ∧ payload.input.isSome then
    let p := { payload with
      messages := payload.input
      input := none }
    match payload.max_output_tokens with
    | some n =>
      if n ≠ 0 then
        { p with
          max_completion_tokens := some n
          max_output_tokens := none }
      else p
    | none => p
  else payload

/-- The dispatcher's result for the accepted attempt. -/
structure FallbackResult where
  status : Nat
  body : String
  data : OpenAIResp
  sentPayload : OpenAIReq
  path : String

/-- `requestWithFallback` from `proxy.ts`, paired with the number of
attempts made: candidates are tried strictly in order; a `404` that is
not on the last candidate advances; any other response is returned; a
transport failure advances unless on the last candidate, where it is
raised; an empty list raises the generic failure. -/
def requestWithFallback : List Candidate → OpenAIReq → Except String FallbackResult × Nat
  | [], _ => (.error "Azure request failed", 0)
  | c :: rest, payload =>
    let currentPayload := adaptPayload c.path payload
    match c.outcome with
    | .resp status body data =>
      if status = 404 ∧ rest.isEmpty = false then
        let r := requestWithFallback rest payload
        (r.1, r.2 + 1)
      else
        (.ok { status := status, body := body, data := data,
               sentPayload := currentPayload, path := c.path }, 1)
    | .err m =>
      if rest.isEmpty = false then
        let r := requestWithFallback rest payload
        (r.1, r.2 + 1)
      else
        (.error m, 1)

/-! ## Streaming reassembler: client event stream -/

/-- One client-facing SSE event (block starts carry the identifying
payload; `mdelta` carries the mapped stop reason and output-token
count). -/
inductive Ev where
  | mstart
  | bstartText (i : Nat)
  | bstartTool (i : Nat) (id : String) (name : String)
  | bdeltaText (i : Nat) (t : String)
  | bdeltaJson (i : Nat) (partialJson : String)
  | bstop (i : Nat)
  | mdelta (stopReason : String) (outputTokens : Nat)
  | mstop
deriving DecidableEq

/-- The per-tool-call accumulator of `handleStreaming`. -/
structure ToolAcc where
  id : String
  name : String
  arguments : String

/-- One entry of a streamed `delta.tool_calls` array
(`tc.index`, `tc.id`, `tc.function?.name`, `tc.function?.arguments`). -/
structure TCDelta where
  index : Option Nat := none
  id : Option String := none
  name : Option String := none
  args : Option String := none
deriving DecidableEq

/-- One entry of a streamed chunk's `choices` array. -/
structure ChunkChoice where
  finish_reason : Option String := none
  content : Option String := none
  tool_calls : Option (List TCDelta) := none
deriving DecidableEq

/-- One parsed SSE data chunk. `usage` is `data.usage?.completion_tokens`
(a chunk whose `usage` object is absent, or whose `completion_tokens`
field is absent, is modelled as `none`; both leave the counter
unchanged, as does the falsy value `0`). The byte-level SSE framing
(`data: ` lines, buffering, skipping unparseable chunks) is abstracted:
the model receives the successfully parsed chunks in order. -/
structure Chunk where
  choices : List ChunkChoice := []
  usage : Option Nat := none
deriving DecidableEq

/-- The mutable state of the native stream relay. -/
structure SState where
  textBlockStarted : Bool
  currentBlockIndex : Nat
  toolCalls : List (Nat × ToolAcc)
  toolBlocksStarted : List Nat
  outputTokens : Nat
  finishReason : String

/-- The state at the start of the relay. -/
def initState : SState :=
  { textBlockStarted := false, currentBlockIndex := 0, toolCalls := [],
    toolBlocksStarted := [], outputTokens := 0, finishReason := "end_turn" }

/-- `Map.get` on the tool-call accumulator map (keyed by `tc.index`). -/
def alGet (l : List (Nat × ToolAcc)) (k : Nat) : Option ToolAcc :=
  match l with
  | [] => none
  | (k2, v) :: rest => if k2 = k then some v else alGet rest k

/-- `Map.set` on the tool-call accumulator map (insertion order kept). -/
def alSet (l : List (Nat × ToolAcc)) (k : Nat) (v : ToolAcc) : List (Nat × ToolAcc) :=
  match l with
  | [] => [(k, v)]
  | (k2, v2) :: rest => if k2 = k then (k, v) :: rest else (k2, v2) :: alSet rest k v

/-- The streaming finish-reason mapping of `handleStreaming`. -/
def mapStreamFinish (fr : String) : String :=
  if fr = "tool_calls" then "tool_use"
  else if fr = "length" then "max_tokens"
  else "end_turn"

/-- The `for (const tc of delta.tool_calls)` loop body of
`handleStreaming`: accumulate id/name/arguments by backend tool index,
start the block once the name is known, and emit argument fragments as
incremental deltas under `currentBlockIndex + tc.index`. -/
def processTCs : SState → List TCDelta → SState × List Ev
  | s, [] => (s, [])
  | s, tc :: rest =>
    let tcIndex := tc.index.getD 0
    let blockIndex := s.currentBlockIndex + tcIndex
    let acc0 := (alGet s.toolCalls tcIndex).getD
      { id := jsOrStr tc.id "", name := "", arguments := "" }
    let acc : ToolAcc := {
      id := match tc.id with
        | some i => if i ≠ "" then i else acc0.id
        | none => acc0.id
      name := match tc.name with
        | some n => if n ≠ "" then n else acc0.name
        | none => acc0.name
      arguments := acc0.arguments ++ tc.args.getD "" }
    let s1 := { s with toolCalls := alSet s.toolCalls tcIndex acc }
    let (s2, startEvs) :=
      if s1.toolBlocksStarted.contains blockIndex = false ∧ acc.name ≠ "" then
        ({ s1 with toolBlocksStarted := s1.toolBlocksStarted ++ [blockIndex] },
         [Ev.bstartTool blockIndex acc.id acc.name])
      else (s1, [])
    let deltaEvs :=
      match tc.args with
      | some a =>
        if a ≠ "" ∧ s2.toolBlocksStarted.contains blockIndex = true then
          [Ev.bdeltaJson blockIndex a]
        else []
      | none => []
    let (s3, restEvs) := processTCs s2 rest
    (s3, startEvs ++ deltaEvs ++ restEvs)

/-- One parsed chunk of the native stream relay (`handleStreaming`'s
`data` handler): only the first choice is consulted; finish reason, then
text content, then tool calls, then usage. A chunk with no choices is
skipped entirely (its usage too). -/
def processChunk (s : SState) (ch : Chunk) : SState × List Ev :=
  match ch.choices with
  | [] => (s, [])
  | choice :: _ =>
    let s0 := match choice.finish_reason with
      | some fr => if fr ≠ "" then { s with finishReason := mapStreamFinish fr } else s
      | none => s
    let (s1, textEvs) :=
      match choice.content with
      | some c =>
        if c ≠ "" then
          if s0.textBlockStarted then
            (s0, [Ev.bdeltaText s0.currentBlockIndex c])
          else
            ({ s0 with textBlockStarted := true },
             [Ev.bstartText s0.currentBlockIndex, Ev.bdeltaText s0.currentBlockIndex c])
        else (s0, [])
      | none => (s0, [])
    let (s2, toolEvs) :=
      match choice.tool_calls with
      | some tcs =>
        let (sc, closeEvs) :=
          if s1.textBlockStarted ∧ s1.toolBlocksStarted = [] then
            ({ s1 with
               textBlockStarted := false
               currentBlockIndex := s1.currentBlockIndex + 1 },
             [Ev.bstop s1.currentBlockIndex])
          else (s1, [])
        let (st, tcEvs) := processTCs sc tcs
        (st, closeEvs ++ tcEvs)
      | none => (s1, [])
    let s3 := match ch.usage with
      | some u => if u ≠ 0 then { s2 with outputTokens := u } else s2
      | none => s2
    (s3, textEvs ++ toolEvs)

/-- Fold `processChunk` over the parsed chunks, accumulating events. -/
def processAll (s : SState) : List Chunk → SState × List Ev
  | [] => (s, [])
  | c :: cs =>
    let (s1, e1) := processChunk s c
    let (s2, e2) := processAll s1 cs
    (s2, e1 ++ e2)

/-- The events the chunk loop emits. -/
def chunkEvents (chunks : List Chunk) : List Ev := (processAll initState chunks).2

/-- The relay state at the end of the backend stream. -/
def finalState (chunks : List Chunk) : SState := (processAll initState chunks).1

/-- The `azureRes.on('end')` flush of `handleStreaming`: close the open
text block (skipped when a tool block owns the same index), close the
tool blocks in insertion order, synthesize an empty text block when no
text block is open and no tool block was started, then `message_delta`
and `message_stop`. -/
def flushEvents (s : SState) : List Ev :=
  (if s.textBlockStarted ∧ s.toolBlocksStarted.contains s.currentBlockIndex = false then
     [Ev.bstop s.currentBlockIndex]
   else [])
  ++ s.toolBlocksStarted.map Ev.bstop
  ++ (if s.textBlockStarted = false ∧ s.toolBlocksStarted = [] then
        [Ev.bstartText 0, Ev.bstop 0]
      else [])
  ++ [Ev.mdelta s.finishReason s.outputTokens, Ev.mstop]

/-- The in-band error rendering shared by both streaming handlers: one
text block carrying the message, then the normal close sequence. -/
def errorBlockEvents (message : String) : List Ev :=
  [Ev.bstartText 0, Ev.bdeltaText 0 message, Ev.bstop 0,
   Ev.mdelta "end_turn" 0, Ev.mstop]

/-- The full event stream of `handleStreaming`: `message_start` first; a
non-200 initial status renders the error body in-band; otherwise the
chunk events followed by the end-of-stream flush. -/
def handleStreamingEvents (status : Nat) (errorBody : String) (chunks : List Chunk) : List Ev :=
  Ev.mstart ::
    (if status ≠ 200 then errorBlockEvents ("Error from Azure: " ++ errorBody)
     else chunkEvents chunks ++ flushEvents (finalState chunks))

/-- The per-block open/delta/close cycles of
`handleStreamingFromNonStreaming` (indices assigned in block order). -/
def respBlockEvents : Nat → List CRBlock → List Ev
  | _, [] => []
  | index, CRBlock.text t :: rest =>
    [Ev.bstartText index, Ev.bdeltaText index (jsOrS t ""), Ev.bstop index]
      ++ respBlockEvents (index + 1) rest
  | index, CRBlock.toolUse id name input :: rest =>
    [Ev.bstartTool index (jsOrS id "") (jsOrS name ""),
     Ev.bdeltaJson index (stringify (jsOrJson input (Json.obj []))),
     Ev.bstop index]
      ++ respBlockEvents (index + 1) rest

/-- The content-block section of the synthesized stream: an empty content
list yields one empty text block. -/
def respContentEvents (response : ClaudeResponse) : List Ev :=
  if response.content.length = 0 then [Ev.bstartText 0, Ev.bstop 0]
  else respBlockEvents 0 response.content

/-- The closing `message_delta`/`message_stop` of the synthesized
stream. -/
def synthCloseEvents (response : ClaudeResponse) : List Ev :=
  [Ev.mdelta (jsOrS response.stop_reason "end_turn") response.usage.output_tokens, Ev.mstop]

/-- The full event stream of `handleStreamingFromNonStreaming`:
`message_start`, then — after one non-streaming dispatch with fallback —
either the in-band error rendering (dispatcher failure or non-200), or
the synthesized per-block cycles and close sequence derived from the
single converted response. -/
def handleStreamingFromNonStreamingEvents (optionsList : List Candidate)
    (openaiReq : OpenAIReq) (model : String) (now : Nat) : List Ev :=
  Ev.mstart ::
    (match (requestWithFallback optionsList openaiReq).1 with
     | .error m => errorBlockEvents ("Error from Azure: " ++ m)
     | .ok result =>
       if result.status ≠ 200 then errorBlockEvents ("Error from Azure: " ++ result.body)
       else
         let response := convertResponse result.data model now
         respContentEvents response ++ synthCloseEvents response)

/-! ## Non-streaming handler and `createProxy` glue -/

/-- What `handleNonStreaming` writes to the client. -/
inductive ClientReply where
  | passthrough (status : Nat) (body : String)
  | converted (response : ClaudeResponse)
  | serverError (message : String)

/-- `handleNonStreaming` from `proxy.ts`: a non-200 dispatcher result is
passed through with its status (`statusCode || 500`) and body verbatim; a
200 body is converted; a dispatcher failure becomes a 500-style error. -/
def handleNonStreaming (optionsList : List Candidate) (openaiReq : OpenAIReq)
    (model : String) (now : Nat) : ClientReply :=
  match (requestWithFallback optionsList openaiReq).1 with
  | .error m => .serverError m
  | .ok result =>
    if result.status ≠ 200 then
      .passthrough (if result.status = 0 then 500 else result.status) result.body
    else .converted (convertResponse result.data model now)

/-- The backend-shape decision of `createProxy`:
`shouldUseResponsesAPI(azure) && !hasToolUsage(claudeReq.messages)`. -/
def useResponsesAPIFor (azure : AzureConfig) (claudeReq : ClaudeReq) : Bool :=
  shouldUseResponsesAPI azure && !hasToolUsage claudeReq.messages

/-- The outbound payload `createProxy` sends: `buildOpenAIRequest`, with
`stream` forced to `false` when the Responses shape is selected. -/
def outboundRequest (claudeReq : ClaudeReq) (azure : AzureConfig) : OpenAIReq :=
  let useR := useResponsesAPIFor azure claudeReq
  let openaiReq := buildOpenAIRequest claudeReq azure useR
  if useR then { openaiReq with stream := false } else openaiReq

/-- The streaming dispatch of `createProxy`: the Responses shape streams
synthetically from one non-streaming dispatch; the native shape relays
the backend event stream of the first (only) candidate. -/
def proxyStreamEvents (claudeReq : ClaudeReq) (azure : AzureConfig)
    (optionsList : List Candidate) (nativeStatus : Nat) (nativeErrorBody : String)
    (chunks : List Chunk) (now : Nat) : List Ev :=
  if useResponsesAPIFor azure claudeReq then
    handleStreamingFromNonStreamingEvents optionsList (outboundRequest claudeReq azure)
      (jsOrStr claudeReq.model "") now
  else handleStreamingEvents nativeStatus nativeErrorBody chunks

/-! ## Event-stream well-formedness checker -/

/-- Checker state machine for the client event-stream grammar
`message_start (block_start delta* block_stop)* message_delta message_stop`
with strictly increasing block indices and per-block deltas: the first
argument is the currently open block (if any), the second the least index
the next block may use. `wfAux ob lo evs = true` means `evs` completes
the stream correctly from that state. -/
def wfAux : Option Nat → Nat → List Ev → Bool
  | none, _, [Ev.mdelta _ _, Ev.mstop] => true
  | none, lo, Ev.bstartText i :: rest => decide (lo ≤ i) && wfAux (some i) (i + 1) rest
  | none, lo, Ev.bstartTool i _ _ :: rest => decide (lo ≤ i) && wfAux (some i) (i + 1) rest
  | some i, lo, Ev.bdeltaText j _ :: rest => (j == i) && wfAux (some i) lo rest
  | some i, lo, Ev.bdeltaJson j _ :: rest => (j == i) && wfAux (some i) lo rest
  | some i, lo, Ev.bstop j :: rest => (j == i) && wfAux none lo rest
  | _, _, _ => false

/-- The full stream grammar: `message_start`, then complete blocks with
strictly increasing indices (each `start`, its contiguous deltas, its
`stop`), then exactly `message_delta` and `message_stop` at the end.
`wellFormed evs = true` implies every ordering/counting invariant the
specification states: start/stop counts are equal and matched, every
delta lies strictly between its block's start and stop, deltas of a
block are contiguous, a block's stop precedes every later block's start,
indices are assigned in strictly increasing order and never reused, and
`message_delta`/`message_stop` are always the final events. -/
def wellFormed : List Ev → Bool
  | Ev.mstart :: rest => wfAux none 0 rest
  | _ => false

/-- Block-start events. -/
def isStart : Ev → Bool
  | .mstart => false
  | .bstartText _ => true
  | .bstartTool _ _ _ => true
  | .bdeltaText _ _ => false
  | .bdeltaJson _ _ => false
  | .bstop _ => false
  | .mdelta _ _ => false
  | .mstop => false

/-- Block-stop events. -/
def isStop : Ev → Bool
  | .mstart => false
  | .bstartText _ => false
  | .bstartTool _ _ _ => false
  | .bdeltaText _ _ => false
  | .bdeltaJson _ _ => false
  | .bstop _ => true
  | .mdelta _ _ => false
  | .mstop => false

/-- The indices of the block-start events, in emission order. -/
def startIndices : List Ev → List Nat
  | [] => []
  | .bstartText i :: rest => i :: startIndices rest
  | .bstartTool i _ _ :: rest => i :: startIndices rest
  | .mstart :: rest => startIndices rest
  | .bdeltaText _ _ :: rest => startIndices rest
  | .bdeltaJson _ _ :: rest => startIndices rest
  | .bstop _ :: rest => startIndices rest
  | .mdelta _ _ :: rest => startIndices rest
  | .mstop :: rest => startIndices rest

/-- An index with an open (started, not yet stopped) block in a relay
state: a started tool block, or the open text block's current index. -/
def isOpenIdx (s : SState) (i : Nat) : Prop :=
  i ∈ s.toolBlocksStarted ∨ (s.textBlockStarted = true ∧ i = s.currentBlockIndex)

/-- The end-of-stream condition under which `handleStreaming` synthesizes
the empty text block: no text block is open and no tool block was ever
started. -/
def noneOpen (s : SState) : Prop :=
  s.textBlockStarted = false ∧ s.toolBlocksStarted = []

/-! ## Claim C7: deployment selection -/

/-- Tiered configuration for the C7 witness (`haiku` mapped to
`gpt-4o-mini`, no router). -/
def c7cfg : AzureConfig :=
  { endpoint := "https://example.openai.azure.com"
    apiKey := "key"
    apiVersion := "2024-02-01"
    deployments := { haiku := some "gpt-4o-mini" } }

/-- Router-mode configuration for the C4 witness. -/
def c4cfg : AzureConfig :=
  { endpoint := "https://example.openai.azure.com"
    apiKey := "key"
    apiVersion := "2024-02-01"
    deployments := {}
    router := some "model-router" }

/-- Tool-result message for the C4 witness. -/
def c4msg : ClaudeMessage :=
  { role := some "user"
    content := .blocks [.toolResult { tool_use_id := "t1", content := .str "ok" }] }

/-- Tool-bearing request for the C4 witness. -/
def c4req : ClaudeReq :=
  { model := some "claude-sonnet-x"
    messages := [c4msg] }

/-! ## Claim C2: token-limit clamping (corrected) -/

/-- Request with `max_tokens: 0` for the C2 counterexample. -/
def c2req : ClaudeReq := { max_tokens := some 0 }

/-- Minimal configuration for C2. -/
def c2cfg : AzureConfig :=
  { endpoint := "https://example.openai.azure.com"
    apiKey := "key"
    apiVersion := "2024-02-01"
    deployments := {} }

/-- Streaming request for the C10 witness (router mode selects the
Responses shape; the client asked for a stream). -/
def c10req : ClaudeReq :=
  { model := some "claude-sonnet-x"
    messages := [{ role := some "user", content := .str "hi" }]
    stream := true }

/-- Candidate whose backend answers 429 with a quota message, for the C8
witness. -/
def c8cand : Candidate :=
  { path := "/openai/deployments/gpt-4o/chat/completions"
    outcome := .resp 429 "quota exceeded" {} }

/-! ## Claim C1: dispatcher fallback discipline (corrected) -/

/-- Candidate list for the C1 counterexample: a transport failure on the
first candidate, then a healthy second candidate. -/
def c1cands : List Candidate :=
  [{ path := "/openai/responses", outcome := .err "connect ECONNREFUSED" },
   { path := "/openai/deployments/gpt-4o/chat/completions", outcome := .resp 200 "ok-body" {} }]

/-- Payload for the C1 counterexample. -/
def c1payload : OpenAIReq := { model := "m", stream := false }

/-- C5 counterexample input: a text chunk, then a chunk whose
`delta.tool_calls` is the (truthy) empty array — it closes the text block
and starts nothing, so at stream end no block is open yet a block was
opened earlier. -/
def cex5 : List Chunk :=
  [{ choices := [{ content := some "hi" }] },
   { choices := [{ tool_calls := some [] }] }]

/-! ## Claim C3: event-stream grammar -/

/-- Number of blocks the checker state still has open (0 or 1). -/
def carryOf : Option Nat → Nat
  | some _ => 1
  | none => 0

/-- The checker's open-block component matching a relay state. -/
def obOf (s : SState) : Option Nat :=
  if s.textBlockStarted then some s.currentBlockIndex else none

/-- The checker's least-next-index component matching a relay state. -/
def loOf (s : SState) : Nat :=
  if s.textBlockStarted then s.currentBlockIndex + 1 else s.currentBlockIndex

/-- C3 counterexample input: a chunk that starts a tool block, then a
chunk with plain text content. The text block opens at
`currentBlockIndex`, which never advanced past the tool block's index,
so index 0 is used twice — and at flush the text stop is suppressed
because a tool block owns the index. -/
def cex3tc : TCDelta :=
  { index := some 0, id := some "a", name := some "f", args := some "\x7b\x7d" }

/-- The two chunks of the C3 counterexample. -/
def cex3 : List Chunk :=
  [{ choices := [{ tool_calls := some [cex3tc] }] },
   { choices := [{ content := some "hi" }] }]

/-- The `tool_calls` array the forward mapping writes for a list of
`tool_use` blocks. -/
def forwardToolCalls (tus : List ToolUseBlock) : List OAIToolCall :=
  tus.map (fun tb =>
    { id := tb.id, name := tb.name,
      arguments := stringify (jsOrJson tb.input (Json.obj [])) })

/-- A backend reply `tool_calls` entry carrying a forward-mapped call. -/
def syntheticReplyTC (tc : OAIToolCall) : OAIRespToolCall :=
  { id := some tc.id, fnName := some tc.name, fnArguments := some tc.arguments }

/-- The `message` object of the synthetic backend reply. -/
def syntheticReplyMsg (tcs : List OAIToolCall) : OAIRespMessage :=
  { content := none, tool_calls := some (tcs.map syntheticReplyTC) }

/-- A synthetic backend reply carrying exactly the given `tool_calls`
with `finish_reason: "tool_calls"`. -/
def syntheticReply (tcs : List OAIToolCall) : OpenAIResp :=
  { choices := [{ message := some (syntheticReplyMsg tcs), finish_reason := some "tool_calls" }] }

/-- The `tool_use` block of the C6 witness. -/
def c6tb : ToolUseBlock :=
  { id := "call_1", name := "get_weather", input := Json.obj [("city", Json.str "Paris")] }

/-- The assistant message of the C6 witness. -/
def c6msg : ClaudeMessage :=
  { role := some "assistant", content := ClaudeContent.blocks [ClaudeBlock.toolUse c6tb] }

/-! ## Theorems -/

/-- A custom induction principle for the nested inductive `Json`,
giving the inductive hypothesis for every element of an array and every
field value of an object. -/
theorem jsonInd {P : Json → Prop} (hnull : P .null) (hbool : ∀ b, P (.bool b))
    (hnum : ∀ n, P (.num n)) (hstr : ∀ s, P (.str s))
    (harr : ∀ l, (∀ v ∈ l, P v) → P (.arr l))
    (hobj : ∀ f, (∀ kv ∈ f, P kv.2) → P (.obj f)) : ∀ j, P j := by
  intro j
  match j with
  | .null => exact hnull
  | .bool b => exact hbool b
  | .num n => exact hnum n
  | .str s => exact hstr s
  | .arr l =>
    refine harr l (fun v hv => ?_)
    exact jsonInd hnull hbool hnum hstr harr hobj v
  | .obj f =>
    refine hobj f (fun kv hkv => ?_)
    exact jsonInd hnull hbool hnum hstr harr hobj kv.2
termination_by j => sizeOf j
decreasing_by
  · have h1 : sizeOf v < sizeOf l := List.sizeOf_lt_of_mem hv
    simp only [Json.arr.sizeOf_spec]
    omega
  · have h1 : sizeOf kv < sizeOf f := List.sizeOf_lt_of_mem hkv
    have h2 : sizeOf kv = 1 + sizeOf kv.1 + sizeOf kv.2 := by
      cases kv
      simp
    simp only [Json.obj.sizeOf_spec]
    omega

/-! ## Print/parse roundtrip for the modelled JSON runtime -/

theorem parseString_escape (cs : List Char) :
    ∀ rest, parseStringChars (escapeChars cs ++ '\"' :: rest) = some (cs, rest) := by
  induction cs with
  | nil =>
    intro rest
    show parseStringChars (escapeChars [] ++ '\"' :: rest) = some ([], rest)
    rw [show escapeChars [] = [] from rfl, List.nil_append, parseStringChars.eq_def]
    simp
  | cons c cs ih =>
    intro rest
    have hesc : escapeChars (c :: cs) = escapeChar c ++ escapeChars cs := by
      simp [escapeChars]
    rw [hesc, List.append_assoc]
    by_cases h1 : c = '\"'
    · subst h1
      rw [show escapeChar '\"' = ['\\', '\"'] from rfl]
      rw [List.cons_append, List.cons_append, parseStringChars.eq_def]
      simp [escDecode, ih]
    by_cases h2 : c = '\\'
    · subst h2
      rw [show escapeChar '\\' = ['\\', '\\'] from rfl]
      rw [List.cons_append, List.cons_append, parseStringChars.eq_def]
      simp [escDecode, ih]
    by_cases h3 : c = '\n'
    · subst h3
      rw [show escapeChar '\n' = ['\\', 'n'] from rfl]
      rw [List.cons_append, List.cons_append, parseStringChars.eq_def]
      simp [escDecode, ih]
    by_cases h4 : c = '\r'
    · subst h4
      rw [show escapeChar '\r' = ['\\', 'r'] from rfl]
      rw [List.cons_append, List.cons_append, parseStringChars.eq_def]
      simp [escDecode, ih]
    by_cases h5 : c = '\t'
    · subst h5
      rw [show escapeChar '\t' = ['\\', 't'] from rfl]
      rw [List.cons_append, List.cons_append, parseStringChars.eq_def]
      simp [escDecode, ih]
    by_cases h6 : c.toNat = 8
    · have hc : c = Char.ofNat 8 := by rw [← h6, Char.ofNat_toNat]
      subst hc
      rw [show escapeChar (Char.ofNat 8) = ['\\', 'b'] from rfl]
      rw [List.cons_append, List.cons_append, parseStringChars.eq_def]
      simp [escDecode, ih]
    by_cases h7 : c.toNat = 12
    · have hc : c = Char.ofNat 12 := by rw [← h7, Char.ofNat_toNat]
      subst hc
      rw [show escapeChar (Char.ofNat 12) = ['\\', 'f'] from rfl]
      rw [List.cons_append, List.cons_append, parseStringChars.eq_def]
      simp [escDecode, ih]
    by_cases h8 : c.toNat < 32
    · have hchars : escapeChar c =
          ['\\', 'u', '0', '0', hexChar (c.toNat / 16), hexChar (c.toNat % 16)] := by
        simp [escapeChar, h1, h2, h3, h4, h5, h6, h7, h8]
      rw [hchars]
      have hhi : c.toNat / 16 < 2 := by omega
      have hlo : c.toNat % 16 < 16 := by omega
      have hvhi : hexVal (hexChar (c.toNat / 16)) = some (c.toNat / 16) := by
        interval_cases h : (c.toNat / 16) <;> decide
      have hvlo : hexVal (hexChar (c.toNat % 16)) = some (c.toNat % 16) := by
        interval_cases h : (c.toNat % 16) <;> decide
      have hval : ((0 * 16 + 0) * 16 + c.toNat / 16) * 16 + c.toNat % 16 = c.toNat := by
        omega
      have hval2 : c.toNat / 16 * 16 + c.toNat % 16 = c.toNat := by omega
      simp only [List.cons_append]
      rw [parseStringChars.eq_def]
      simp [hvhi, hvlo, hval, hval2, Char.ofNat_toNat, ih, show hexVal '0' = some 0 by decide]
    · have hchars : escapeChar c = [c] := by
        simp [escapeChar, h1, h2, h3, h4, h5, h6, h7, h8]
      rw [hchars]
      simp only [List.cons_append, List.nil_append]
      rw [parseStringChars.eq_def]
      simp [h1, h2, h8, ih]

theorem natChars_ne_nil (m : Nat) : natChars m ≠ [] := by
  unfold natChars
  split
  · simp
  · rename_i hm
    have : Nat.digits 10 m ≠ [] := Nat.digits_ne_nil_iff_ne_zero.mpr hm
    simp [this]

theorem decChar_spec (d : Nat) (hd : d < 10) :
    (decChar d).isDigit = true ∧ digitVal (decChar d) = d := by
  interval_cases d <;> exact ⟨by decide, by decide⟩

theorem natChars_all_digits (m : Nat) : ∀ c ∈ natChars m, c.isDigit = true := by
  intro c hc
  unfold natChars at hc
  split at hc
  · simp at hc; subst hc; decide
  · simp only [List.mem_map, List.mem_reverse] at hc
    obtain ⟨d, hd, rfl⟩ := hc
    have : d < 10 := Nat.digits_lt_base (by norm_num) hd
    exact (decChar_spec d this).1

theorem digit_not_ws {c : Char} (h : c.isDigit = true) : isJsonWs c = false := by
  by_contra hw
  simp only [isJsonWs, Bool.not_eq_false, Bool.or_eq_true, decide_eq_true_eq] at hw
  rcases hw with ((rfl | rfl) | rfl) | rfl <;> simp at h

theorem takeWhile_append_all {α : Type} (p : α → Bool) (l r : List α)
    (hl : ∀ c ∈ l, p c = true) (hr : ∀ c cs, r = c :: cs → p c = false) :
    (l ++ r).takeWhile p = l ∧ (l ++ r).dropWhile p = r := by
  induction l with
  | nil =>
    simp only [List.nil_append]
    cases r with
    | nil => simp
    | cons c cs =>
      have := hr c cs rfl
      simp [List.takeWhile_cons, List.dropWhile_cons, this]
  | cons x l ih =>
    have hx : p x = true := hl x (by simp)
    have ihh := ih (fun c hc => hl c (by simp [hc]))
    simp [List.takeWhile_cons, List.dropWhile_cons, hx, ihh.1, ihh.2]

theorem foldl_rev_digits (L : List Nat) (hL : ∀ d ∈ L, d < 10) :
    ∀ acc, ((L.reverse.map decChar).foldl (fun acc c => acc * 10 + digitVal c) acc)
      = acc * 10 ^ L.length + Nat.ofDigits 10 L := by
  induction L with
  | nil => intro acc; simp [Nat.ofDigits_nil]
  | cons d L ih =>
    intro acc
    have hd : d < 10 := hL d (by simp)
    have ihh := ih (fun x hx => hL x (by simp [hx]))
    simp only [List.reverse_cons, List.map_append, List.foldl_append, List.map_cons,
      List.map_nil, List.foldl_cons, List.foldl_nil, ihh, Nat.ofDigits_cons,
      (decChar_spec d hd).2, List.length_cons]
    ring

theorem foldl_natChars (m : Nat) :
    (natChars m).foldl (fun acc c => acc * 10 + digitVal c) 0 = m := by
  unfold natChars
  split
  · rename_i hm; subst hm; decide
  · have hd : ∀ d ∈ Nat.digits 10 m, d < 10 := fun d hd => Nat.digits_lt_base (by norm_num) hd
    rw [foldl_rev_digits (Nat.digits 10 m) hd 0]
    simp [Nat.ofDigits_digits]

theorem parseNatNum_natChars (m : Nat) (rest : List Char)
    (hrest : ∀ c cs, rest = c :: cs → c.isDigit = false) :
    parseNatNum (natChars m ++ rest) = some (m, rest) := by
  have h := takeWhile_append_all Char.isDigit (natChars m) rest (natChars_all_digits m) hrest
  unfold parseNatNum
  rw [h.1, h.2]
  simp [natChars_ne_nil m, foldl_natChars m]

/-- Head of a serialized value: never whitespace, never a closing bracket,
never a closing brace. -/
theorem stringify_head (j : Json) :
    ∃ c tail, stringifyChars j = c :: tail ∧ isJsonWs c = false ∧ c ≠ ']' ∧ c ≠ '\x7d' := by
  cases j with
  | null => exact ⟨'n', _, rfl, by decide, by decide, by decide⟩
  | bool b =>
    cases b with
    | false => exact ⟨'f', _, rfl, by decide, by decide, by decide⟩
    | true => exact ⟨'t', _, rfl, by decide, by decide, by decide⟩
  | num n =>
    by_cases hn : n < 0
    · refine ⟨'-', natChars n.natAbs, ?_, by decide, by decide, by decide⟩
      simp [stringifyChars, intChars, hn]
    · have hne := natChars_ne_nil n.natAbs
      obtain ⟨c, tail, hct⟩ := List.exists_cons_of_ne_nil hne
      have hdig : c.isDigit = true := natChars_all_digits n.natAbs c (by rw [hct]; simp)
      refine ⟨c, tail, ?_, digit_not_ws hdig, ?_, ?_⟩
      · simp [stringifyChars, intChars, hn, hct]
      · intro hc; subst hc; simp at hdig
      · intro hc; subst hc; simp at hdig
  | str s => exact ⟨'\"', _, rfl, by decide, by decide, by decide⟩
  | arr l => exact ⟨'[', _, rfl, by decide, by decide, by decide⟩
  | obj f => exact ⟨'\x7b', _, rfl, by decide, by decide, by decide⟩

theorem fuelOf_pos (j : Json) : 1 ≤ fuelOf j := by
  cases j <;> simp [fuelOf]

theorem fuelArr_pos (l : List Json) : 1 ≤ fuelArr l := by
  cases l <;> simp [fuelArr]

theorem fuelObj_pos (f : List (String × Json)) : 1 ≤ fuelObj f := by
  rcases f with _ | ⟨⟨k, v⟩, fs⟩ <;> simp [fuelObj]

theorem skipWs_cons {c : Char} (h : isJsonWs c = false) (tail : List Char) :
    skipWs (c :: tail) = c :: tail := by
  simp [skipWs, List.dropWhile_cons, h]

theorem str_mk_data (s : String) : String.mk s.data = s := by
  cases s
  rfl

theorem stringifyArr_cons_decomp (v : Json) (vs : List Json) :
    ∃ Z, stringifyArr (v :: vs) = stringifyChars v ++ Z := by
  cases vs with
  | nil => exact ⟨[], by rw [show stringifyArr [v] = stringifyChars v from rfl, List.append_nil]⟩
  | cons v2 vs2 => exact ⟨',' :: stringifyArr (v2 :: vs2), rfl⟩

theorem stringifyObj_cons_decomp (k : String) (v : Json) (fs : List (String × Json)) :
    ∃ Z, stringifyObj ((k, v) :: fs) = '\"' :: Z := by
  cases fs with
  | nil =>
    exact ⟨escapeChars k.data ++ '\"' :: ':' :: stringifyChars v, rfl⟩
  | cons kv2 fs2 =>
    refine ⟨(escapeChars k.data ++ '\"' :: ':' :: stringifyChars v) ++ ',' :: stringifyObj (kv2 :: fs2), ?_⟩
    rw [show stringifyObj ((k, v) :: kv2 :: fs2)
        = ('\"' :: (escapeChars k.data ++ '\"' :: ':' :: stringifyChars v))
          ++ ',' :: stringifyObj (kv2 :: fs2) from rfl]
    rfl

theorem parse_stringify_all (fuel : Nat) :
    (∀ j rest, fuelOf j ≤ fuel → headNotDigit rest = true →
      parseValue fuel (stringifyChars j ++ rest) = some (j, rest))
    ∧ (∀ l rest, l ≠ [] → fuelArr l ≤ fuel →
      parseItems fuel (stringifyArr l ++ ']' :: rest) = some (l, rest))
    ∧ (∀ f rest, f ≠ [] → fuelObj f ≤ fuel →
      parseFields fuel (stringifyObj f ++ '\x7d' :: rest) = some (f, rest)) := by
  induction fuel with
  | zero =>
    refine ⟨fun j rest hf _ => absurd hf (by have := fuelOf_pos j; omega),
            fun l rest hl hf => absurd hf (by have := fuelArr_pos l; omega),
            fun f rest hf hfo => absurd hfo (by have := fuelObj_pos f; omega)⟩
  | succ fuel ih =>
    obtain ⟨ihV, ihI, ihF⟩ := ih
    refine ⟨?_, ?_, ?_⟩
    · intro j rest hf hrest
      have hrest2 : ∀ c cs, rest = c :: cs → c.isDigit = false := by
        intro c cs hc
        subst hc
        simpa [headNotDigit] using hrest
      cases j with
      | null =>
        rw [show stringifyChars .null ++ rest = 'n' :: 'u' :: 'l' :: 'l' :: rest from rfl,
          parseValue.eq_def]
        simp [skipWs_cons (show isJsonWs 'n' = false from by decide)]
      | bool b =>
        cases b with
        | true =>
          rw [show stringifyChars (.bool true) ++ rest = 't' :: 'r' :: 'u' :: 'e' :: rest from rfl,
            parseValue.eq_def]
          simp [skipWs_cons (show isJsonWs 't' = false from by decide)]
        | false =>
          rw [show stringifyChars (.bool false) ++ rest
              = 'f' :: 'a' :: 'l' :: 's' :: 'e' :: rest from rfl,
            parseValue.eq_def]
          simp [skipWs_cons (show isJsonWs 'f' = false from by decide)]
      | num n =>
        by_cases hn : n < 0
        · have h1 : stringifyChars (.num n) ++ rest = '-' :: (natChars n.natAbs ++ rest) := by
            rw [show stringifyChars (.num n) = intChars n from rfl]
            simp [intChars, hn]
          rw [h1, parseValue.eq_def]
          simp only [skipWs_cons (show isJsonWs '-' = false from by decide)]
          have hv : -((n.natAbs : Nat) : Int) = n := by omega
          have hv2 : -|n| = n := by
            rw [abs_of_neg hn]
            ring
          simp [parseNatNum_natChars n.natAbs rest hrest2, hv, hv2]
        · obtain ⟨c, tail, hct⟩ := List.exists_cons_of_ne_nil (natChars_ne_nil n.natAbs)
          have hdig : c.isDigit = true := natChars_all_digits _ c (by rw [hct]; simp)
          have h1 : stringifyChars (.num n) ++ rest = c :: (tail ++ rest) := by
            rw [show stringifyChars (.num n) = intChars n from rfl]
            simp [intChars, hn, hct]
          have h2 : c :: (tail ++ rest) = natChars n.natAbs ++ rest := by
            rw [hct]
            rfl
          have hv : ((n.natAbs : Nat) : Int) = n := by omega
          have hv2 : |n| = n := abs_of_nonneg (by omega)
          rw [h1, parseValue.eq_def]
          simp only [skipWs_cons (digit_not_ws hdig)]
          simp [hdig, h2, parseNatNum_natChars n.natAbs rest hrest2, hv, hv2]
      | str s =>
        have h1 : stringifyChars (.str s) ++ rest
            = '\"' :: (escapeChars s.data ++ '\"' :: rest) := by
          rw [show stringifyChars (.str s) = '\"' :: (escapeChars s.data ++ ['\"']) from rfl]
          simp
        rw [h1, parseValue.eq_def]
        simp only [skipWs_cons (show isJsonWs '\"' = false from by decide)]
        simp [parseString_escape s.data rest, str_mk_data]
      | arr l =>
        cases l with
        | nil =>
          rw [show stringifyChars (.arr []) ++ rest = '[' :: ']' :: rest from rfl,
            parseValue.eq_def]
          simp only [skipWs_cons (show isJsonWs '[' = false from by decide)]
          simp [skipWs_cons (show isJsonWs ']' = false from by decide)]
        | cons v vs =>
          obtain ⟨c, tail, hct, hcw, hcb, hcb2⟩ := stringify_head v
          obtain ⟨Z0, hZ0⟩ := stringifyArr_cons_decomp v vs
          have h1 : stringifyChars (.arr (v :: vs)) ++ rest
              = '[' :: (stringifyArr (v :: vs) ++ ']' :: rest) := by
            rw [show stringifyChars (.arr (v :: vs))
                = '[' :: (stringifyArr (v :: vs) ++ [']']) from rfl]
            simp
          have hZ : stringifyArr (v :: vs) ++ ']' :: rest = c :: (tail ++ (Z0 ++ ']' :: rest)) := by
            rw [hZ0, hct]
            simp
          have hfe : fuelOf (Json.arr (v :: vs)) = 1 + fuelArr (v :: vs) := rfl
          have hfuel : fuelArr (v :: vs) ≤ fuel := by
            rw [hfe] at hf
            omega
          have hitems := ihI (v :: vs) rest (by simp) hfuel
          have hitems2 : parseItems fuel (c :: (tail ++ (Z0 ++ ']' :: rest)))
              = some (v :: vs, rest) := by
            rw [← hZ]
            exact hitems
          rw [h1, parseValue.eq_def]
          simp only [skipWs_cons (show isJsonWs '[' = false from by decide)]
          rw [hZ]
          simp only [skipWs_cons hcw]
          simp
          split
          · rename_i heq
            rw [List.cons.injEq] at heq
            exact absurd heq.1 hcb
          · simp [hitems2]
      | obj f =>
        cases f with
        | nil =>
          rw [show stringifyChars (.obj []) ++ rest = '\x7b' :: '\x7d' :: rest from rfl,
            parseValue.eq_def]
          simp only [skipWs_cons (show isJsonWs '\x7b' = false from by decide)]
          simp [skipWs_cons (show isJsonWs '\x7d' = false from by decide)]
        | cons kv fs =>
          obtain ⟨k, v⟩ := kv
          obtain ⟨Z0, hZ0⟩ := stringifyObj_cons_decomp k v fs
          have h1 : stringifyChars (.obj ((k, v) :: fs)) ++ rest
              = '\x7b' :: (stringifyObj ((k, v) :: fs) ++ '\x7d' :: rest) := by
            rw [show stringifyChars (.obj ((k, v) :: fs))
                = '\x7b' :: (stringifyObj ((k, v) :: fs) ++ ['\x7d']) from rfl]
            simp
          have hZ : stringifyObj ((k, v) :: fs) ++ '\x7d' :: rest
              = '\"' :: (Z0 ++ '\x7d' :: rest) := by
            rw [hZ0]
            rfl
          have hfe : fuelOf (Json.obj ((k, v) :: fs)) = 1 + fuelObj ((k, v) :: fs) := rfl
          have hfuel : fuelObj ((k, v) :: fs) ≤ fuel := by
            rw [hfe] at hf
            omega
          have hfields := ihF ((k, v) :: fs) rest (by simp) hfuel
          have hfields2 : parseFields fuel ('\"' :: (Z0 ++ '\x7d' :: rest))
              = some ((k, v) :: fs, rest) := by
            rw [← hZ]
            exact hfields
          rw [h1, parseValue.eq_def]
          simp only [skipWs_cons (show isJsonWs '\x7b' = false from by decide)]
          rw [hZ]
          simp only [skipWs_cons (show isJsonWs '\"' = false from by decide)]
          simp [hfields2]
    · intro l rest hl hf
      match l, hl with
      | v :: vs, _ =>
        cases vs with
        | nil =>
          have h1 : stringifyArr [v] ++ ']' :: rest = stringifyChars v ++ ']' :: rest := rfl
          have hfa : fuelArr [v] = 1 + max (fuelOf v) (fuelArr []) := rfl
          have hfv : fuelOf v ≤ fuel := by
            rw [hfa] at hf
            have := Nat.le_max_left (fuelOf v) (fuelArr [])
            omega
          have hval := ihV v (']' :: rest) hfv rfl
          rw [parseItems.eq_def, h1]
          simp only [hval]
          simp [skipWs_cons (show isJsonWs ']' = false from by decide)]
        | cons v2 vs2 =>
          have h1 : stringifyArr (v :: v2 :: vs2) ++ ']' :: rest
              = stringifyChars v ++ (',' :: (stringifyArr (v2 :: vs2) ++ ']' :: rest)) := by
            rw [show stringifyArr (v :: v2 :: vs2)
                = stringifyChars v ++ ',' :: stringifyArr (v2 :: vs2) from rfl]
            simp
          have hfa : fuelArr (v :: v2 :: vs2) = 1 + max (fuelOf v) (fuelArr (v2 :: vs2)) := rfl
          have hfv : fuelOf v ≤ fuel := by
            rw [hfa] at hf
            have := Nat.le_max_left (fuelOf v) (fuelArr (v2 :: vs2))
            omega
          have hfvs : fuelArr (v2 :: vs2) ≤ fuel := by
            rw [hfa] at hf
            have := Nat.le_max_right (fuelOf v) (fuelArr (v2 :: vs2))
            omega
          have hval := ihV v (',' :: (stringifyArr (v2 :: vs2) ++ ']' :: rest)) hfv rfl
          have hitems := ihI (v2 :: vs2) rest (by simp) hfvs
          rw [parseItems.eq_def, h1]
          simp only [hval]
          simp only [skipWs_cons (show isJsonWs ',' = false from by decide)]
          simp [hitems]
    · intro f rest hfne hf
      match f, hfne with
      | (k, v) :: fs, _ =>
        cases fs with
        | nil =>
          have h1 : stringifyObj [(k, v)] ++ '\x7d' :: rest
              = '\"' :: (escapeChars k.data
                ++ '\"' :: (':' :: (stringifyChars v ++ '\x7d' :: rest))) := by
            rw [show stringifyObj [(k, v)]
                = '\"' :: (escapeChars k.data ++ '\"' :: ':' :: stringifyChars v) from rfl]
            simp
          have hfo : fuelObj [(k, v)] = 1 + max (fuelOf v) (fuelObj []) := rfl
          have hfv : fuelOf v ≤ fuel := by
            rw [hfo] at hf
            have := Nat.le_max_left (fuelOf v) (fuelObj [])
            omega
          have hval := ihV v ('\x7d' :: rest) hfv rfl
          rw [parseFields.eq_def, h1]
          simp only [skipWs_cons (show isJsonWs '\"' = false from by decide)]
          simp only [parseString_escape k.data]
          simp only [skipWs_cons (show isJsonWs ':' = false from by decide)]
          simp only [hval]
          simp [skipWs_cons (show isJsonWs '\x7d' = false from by decide), str_mk_data]
        | cons kv2 fs2 =>
          have h1 : stringifyObj ((k, v) :: kv2 :: fs2) ++ '\x7d' :: rest
              = '\"' :: (escapeChars k.data ++ '\"' :: (':' :: (stringifyChars v
                ++ (',' :: (stringifyObj (kv2 :: fs2) ++ '\x7d' :: rest))))) := by
            rw [show stringifyObj ((k, v) :: kv2 :: fs2)
                = ('\"' :: (escapeChars k.data ++ '\"' :: ':' :: stringifyChars v))
                  ++ ',' :: stringifyObj (kv2 :: fs2) from rfl]
            simp
          have hfo : fuelObj ((k, v) :: kv2 :: fs2)
              = 1 + max (fuelOf v) (fuelObj (kv2 :: fs2)) := by
            obtain ⟨k2, v2⟩ := kv2
            rfl
          have hfv : fuelOf v ≤ fuel := by
            rw [hfo] at hf
            have := Nat.le_max_left (fuelOf v) (fuelObj (kv2 :: fs2))
            omega
          have hffs : fuelObj (kv2 :: fs2) ≤ fuel := by
            rw [hfo] at hf
            have := Nat.le_max_right (fuelOf v) (fuelObj (kv2 :: fs2))
            omega
          have hval := ihV v (',' :: (stringifyObj (kv2 :: fs2) ++ '\x7d' :: rest)) hfv rfl
          have hfields := ihF (kv2 :: fs2) rest (by simp) hffs
          rw [parseFields.eq_def, h1]
          simp only [skipWs_cons (show isJsonWs '\"' = false from by decide)]
          simp only [parseString_escape k.data]
          simp only [skipWs_cons (show isJsonWs ':' = false from by decide)]
          simp only [hval]
          simp only [skipWs_cons (show isJsonWs ',' = false from by decide)]
          simp [hfields, str_mk_data]

theorem fuelArr_le_length (l : List Json)
    (h : ∀ v ∈ l, fuelOf v ≤ (stringifyChars v).length + 1) :
    fuelArr l ≤ (stringifyArr l).length + 2 := by
  induction l with
  | nil =>
    rw [show fuelArr [] = 1 from rfl]
    omega
  | cons v vs ih =>
    have hv := h v (by simp)
    cases vs with
    | nil =>
      rw [show fuelArr [v] = 1 + max (fuelOf v) (fuelArr []) from rfl,
        show fuelArr [] = 1 from rfl,
        show stringifyArr [v] = stringifyChars v from rfl]
      have hm : max (fuelOf v) 1 ≤ (stringifyChars v).length + 1 :=
        Nat.max_le.mpr ⟨hv, by omega⟩
      omega
    | cons v2 vs2 =>
      have ihh := ih (fun w hw => h w (by simp [hw]))
      rw [show fuelArr (v :: v2 :: vs2) = 1 + max (fuelOf v) (fuelArr (v2 :: vs2)) from rfl,
        show stringifyArr (v :: v2 :: vs2)
          = stringifyChars v ++ ',' :: stringifyArr (v2 :: vs2) from rfl]
      simp only [List.length_append, List.length_cons]
      have hm : max (fuelOf v) (fuelArr (v2 :: vs2))
          ≤ (stringifyChars v).length + (stringifyArr (v2 :: vs2)).length + 2 :=
        Nat.max_le.mpr ⟨by omega, by omega⟩
      omega

theorem fuelObj_le_length (f : List (String × Json))
    (h : ∀ kv ∈ f, fuelOf kv.2 ≤ (stringifyChars kv.2).length + 1) :
    fuelObj f ≤ (stringifyObj f).length + 2 := by
  induction f with
  | nil =>
    rw [show fuelObj [] = 1 from rfl]
    omega
  | cons kv fs ih =>
    obtain ⟨k, v⟩ := kv
    have hv : fuelOf v ≤ (stringifyChars v).length + 1 := h (k, v) (by simp)
    cases fs with
    | nil =>
      rw [show fuelObj [(k, v)] = 1 + max (fuelOf v) (fuelObj []) from rfl,
        show fuelObj [] = 1 from rfl,
        show stringifyObj [(k, v)]
          = '\"' :: (escapeChars k.data ++ '\"' :: ':' :: stringifyChars v) from rfl]
      simp only [List.length_cons, List.length_append]
      have hm : max (fuelOf v) 1 ≤ (stringifyChars v).length + 1 :=
        Nat.max_le.mpr ⟨hv, by omega⟩
      omega
    | cons kv2 fs2 =>
      have ihh := ih (fun w hw => h w (by simp [hw]))
      rw [show fuelObj ((k, v) :: kv2 :: fs2)
          = 1 + max (fuelOf v) (fuelObj (kv2 :: fs2)) from rfl,
        show stringifyObj ((k, v) :: kv2 :: fs2)
          = ('\"' :: (escapeChars k.data ++ '\"' :: ':' :: stringifyChars v))
            ++ ',' :: stringifyObj (kv2 :: fs2) from rfl]
      simp only [List.length_append, List.length_cons]
      have hm : max (fuelOf v) (fuelObj (kv2 :: fs2))
          ≤ (escapeChars k.data).length + (stringifyChars v).length
            + (stringifyObj (kv2 :: fs2)).length + 2 :=
        Nat.max_le.mpr ⟨by omega, by omega⟩
      omega

theorem fuelOf_le_length : ∀ j, fuelOf j ≤ (stringifyChars j).length + 1 := by
  refine jsonInd ?_ ?_ ?_ ?_ ?_ ?_
  · rw [show fuelOf .null = 1 from rfl]
    omega
  · intro b
    rw [show fuelOf (.bool b) = 1 from rfl]
    omega
  · intro n
    rw [show fuelOf (.num n) = 1 from rfl]
    omega
  · intro s
    rw [show fuelOf (.str s) = 1 from rfl]
    omega
  · intro l hl
    have hb := fuelArr_le_length l hl
    rw [show fuelOf (.arr l) = 1 + fuelArr l from rfl,
      show stringifyChars (.arr l) = '[' :: (stringifyArr l ++ [']']) from rfl]
    simp only [List.length_cons, List.length_append]
    omega
  · intro f hf
    have hb := fuelObj_le_length f hf
    rw [show fuelOf (.obj f) = 1 + fuelObj f from rfl,
      show stringifyChars (.obj f) = '\x7b' :: (stringifyObj f ++ ['\x7d']) from rfl]
    simp only [List.length_cons, List.length_append]
    omega

/-- Serializing any JSON value and parsing it back yields the value:
the modelled `JSON.parse` inverts the modelled `JSON.stringify`. -/
theorem parseJson_stringify (j : Json) : parseJson (stringify j) = some j := by
  have hlen : (stringify j).length = (stringifyChars j).length := rfl
  have hdata : (stringify j).data = stringifyChars j := rfl
  have hfuel : fuelOf j ≤ (stringifyChars j).length + 1 := fuelOf_le_length j
  have hmain := (parse_stringify_all ((stringifyChars j).length + 1)).1 j [] hfuel rfl
  rw [List.append_nil] at hmain
  unfold parseJson
  rw [hlen, hdata, hmain]
  simp [skipWs]

/-- C7: for every requested model name, a configured (truthy) router
deployment is returned for every model; otherwise selection is by
case-insensitive substring match on the model name — "opus" selects the
opus-tier deployment (default `gpt-4o`), otherwise "haiku" selects the
haiku-tier deployment (default `gpt-4o-mini`), and everything else
(including a "sonnet" match) selects the sonnet-tier deployment (default
`gpt-4o`). -/
theorem c7_deployment_selection (model : String) (config : AzureConfig) :
    (∀ r, config.router = some r → r ≠ "" → getDeployment model config = r)
    ∧ (optTruthy config.router = false →
        ((jsIncludes (strToLower model) "opus" = true →
            getDeployment model config = jsOrStr config.deployments.opus "gpt-4o")
        ∧ (jsIncludes (strToLower model) "opus" = false → jsIncludes (strToLower model) "haiku" = true →
            getDeployment model config = jsOrStr config.deployments.haiku "gpt-4o-mini")
        ∧ (jsIncludes (strToLower model) "opus" = false → jsIncludes (strToLower model) "haiku" = false →
            getDeployment model config = jsOrStr config.deployments.sonnet "gpt-4o"))) := by
  constructor
  · intro r hr hne
    simp [getDeployment, hr, hne]
  · intro hrf
    have htiered : getDeployment model config =
        (if jsIncludes (strToLower model) "opus" then jsOrStr config.deployments.opus "gpt-4o"
         else if jsIncludes (strToLower model) "haiku" then jsOrStr config.deployments.haiku "gpt-4o-mini"
         else jsOrStr config.deployments.sonnet "gpt-4o") := by
      rcases hrc : config.router with _ | r
      · simp [getDeployment, hrc]
      · have : r = "" := by
          rw [hrc] at hrf
          simpa [optTruthy] using hrf
        subst this
        simp [getDeployment, hrc]
    refine ⟨?_, ?_, ?_⟩
    · intro h1
      simp [htiered, h1]
    · intro h1 h2
      simp [htiered, h1, h2]
    · intro h1 h2
      simp [htiered, h1, h2]

/-- Witness for C7 at the spec's end-to-end scenario: `claude-haiku-x`
against the tiered configuration resolves to `gpt-4o-mini`. -/
theorem c7_deployment_selection_witness :
    getDeployment "claude-haiku-x" c7cfg = "gpt-4o-mini" := by
  have h := ((c7_deployment_selection "claude-haiku-x" c7cfg).2 (by decide)).2.1
    (by decide) (by decide)
  simpa using h

/-! ## Claim C4: backend-shape selection with tool forcing -/

/-- The temperature block leaves the shape-determining fields alone. -/
theorem applyTemperature_keeps (req : OpenAIReq) (t : Option Rat) :
    (applyTemperature req t).input = req.input
    ∧ (applyTemperature req t).messages = req.messages
    ∧ (applyTemperature req t).max_output_tokens = req.max_output_tokens
    ∧ (applyTemperature req t).max_completion_tokens = req.max_completion_tokens
    ∧ (applyTemperature req t).stream = req.stream := by
  cases t <;> simp [applyTemperature]

/-- The tools block leaves the shape-determining fields alone. -/
theorem applyTools_keeps (req : OpenAIReq) (ts : Option (List ClaudeTool)) (u : Bool) :
    (applyTools req ts u).input = req.input
    ∧ (applyTools req ts u).messages = req.messages
    ∧ (applyTools req ts u).max_output_tokens = req.max_output_tokens
    ∧ (applyTools req ts u).max_completion_tokens = req.max_completion_tokens
    ∧ (applyTools req ts u).stream = req.stream := by
  cases ts with
  | none => simp [applyTools]
  | some l =>
    simp only [applyTools]
    split <;> simp

/-- The reasoning block leaves the shape-determining fields alone. -/
theorem applyReasoning_keeps (req : OpenAIReq) (config : AzureConfig) (u : Bool) :
    (applyReasoning req config u).input = req.input
    ∧ (applyReasoning req config u).messages = req.messages
    ∧ (applyReasoning req config u).max_output_tokens = req.max_output_tokens
    ∧ (applyReasoning req config u).max_completion_tokens = req.max_completion_tokens
    ∧ (applyReasoning req config u).stream = req.stream := by
  rcases h : config.reasoningEffort with _ | re
  · simp [applyReasoning, h]
  · simp only [applyReasoning, h]
    repeat' split
    all_goals simp

/-- The base record's fields by targeted shape. -/
theorem coreRequest_fields (claudeReq : ClaudeReq) (config : AzureConfig) (u : Bool) :
    (coreRequest claudeReq config u).input.isSome = u
    ∧ (coreRequest claudeReq config u).messages.isSome = !u
    ∧ (coreRequest claudeReq config u).max_output_tokens
        = (if u then some (max 4096 (min (jsOrNat claudeReq.max_tokens 64000) 128000)) else none)
    ∧ (coreRequest claudeReq config u).max_completion_tokens
        = (if u then none else some (max 4096 (min (jsOrNat claudeReq.max_tokens 64000) 128000)))
    ∧ (coreRequest claudeReq config u).stream = claudeReq.stream := by
  cases u <;> simp [coreRequest]

/-- The token-limit and prompt fields of `buildOpenAIRequest` by shape:
the untargeted shape's fields stay unset. -/
theorem buildOpenAIRequest_fields (claudeReq : ClaudeReq) (config : AzureConfig)
    (u : Bool) :
    (buildOpenAIRequest claudeReq config u).input.isSome = u
    ∧ (buildOpenAIRequest claudeReq config u).messages.isSome = !u
    ∧ (buildOpenAIRequest claudeReq config u).max_output_tokens
        = (if u then some (max 4096 (min (jsOrNat claudeReq.max_tokens 64000) 128000)) else none)
    ∧ (buildOpenAIRequest claudeReq config u).max_completion_tokens
        = (if u then none else some (max 4096 (min (jsOrNat claudeReq.max_tokens 64000) 128000)))
    ∧ (buildOpenAIRequest claudeReq config u).stream = claudeReq.stream := by
  have h1 := applyReasoning_keeps
    (applyTools (applyTemperature (coreRequest claudeReq config u) claudeReq.temperature)
      claudeReq.tools u) config u
  have h2 := applyTools_keeps
    (applyTemperature (coreRequest claudeReq config u) claudeReq.temperature) claudeReq.tools u
  have h3 := applyTemperature_keeps (coreRequest claudeReq config u) claudeReq.temperature
  have h4 := coreRequest_fields claudeReq config u
  unfold buildOpenAIRequest
  refine ⟨?_, ?_, ?_, ?_, ?_⟩
  · rw [h1.1, h2.1, h3.1]
    exact h4.1
  · rw [h1.2.1, h2.2.1, h3.2.1]
    exact h4.2.1
  · rw [h1.2.2.1, h2.2.2.1, h3.2.2.1]
    exact h4.2.2.1
  · rw [h1.2.2.2.1, h2.2.2.2.1, h3.2.2.2.1]
    exact h4.2.2.2.1
  · rw [h1.2.2.2.2, h2.2.2.2.2, h3.2.2.2.2]
    exact h4.2.2.2.2

/-- C4: a message history containing any `tool_use` or `tool_result`
block forces the native Chat Completions shape (the Responses shape is
not used: the outbound payload carries `messages`, not `input`), even
when a router is configured or the API version is in the Responses
family; with no such block, the Responses shape is selected exactly when
a router is configured or the API version string indicates the Responses
family. -/
theorem c4_tool_forcing (azure : AzureConfig) (claudeReq : ClaudeReq) :
    (hasToolUsage claudeReq.messages = true →
      useResponsesAPIFor azure claudeReq = false
      ∧ (outboundRequest claudeReq azure).input = none
      ∧ (outboundRequest claudeReq azure).messages.isSome = true)
    ∧ (hasToolUsage claudeReq.messages = false →
      useResponsesAPIFor azure claudeReq
        = (optTruthy azure.router || isResponsesApiVersion azure.apiVersion)) := by
  constructor
  · intro h
    have hu : useResponsesAPIFor azure claudeReq = false := by
      simp [useResponsesAPIFor, h]
    have hf := buildOpenAIRequest_fields claudeReq azure false
    refine ⟨hu, ?_, ?_⟩
    · have : (outboundRequest claudeReq azure) = buildOpenAIRequest claudeReq azure false := by
        simp [outboundRequest, hu]
      rw [this]
      simpa using hf.1
    · have : (outboundRequest claudeReq azure) = buildOpenAIRequest claudeReq azure false := by
        simp [outboundRequest, hu]
      rw [this]
      simpa using hf.2.1
  · intro h
    simp [useResponsesAPIFor, shouldUseResponsesAPI, h]

/-- Witness for C4: with a router configured (which alone would select
the Responses shape) and a `tool_result` block in the history, the
native chat shape is forced and the payload carries `messages`. -/
theorem c4_tool_forcing_witness :
    useResponsesAPIFor c4cfg c4req = false
    ∧ (outboundRequest c4req c4cfg).input = none
    ∧ (outboundRequest c4req c4cfg).messages.isSome = true
    ∧ useResponsesAPIFor c4cfg { c4req with messages := [] } = true :=
  ⟨((c4_tool_forcing c4cfg c4req).1 (by decide)).1,
   ((c4_tool_forcing c4cfg c4req).1 (by decide)).2.1,
   ((c4_tool_forcing c4cfg c4req).1 (by decide)).2.2,
   by decide⟩

/-- Counterexample to C2 as stated: a requested `max_tokens` of `0` does
not clamp to `4096`; the JavaScript `claudeReq.max_tokens || 64000`
treats the falsy `0` as absent, so the outbound value is `64000`. -/
theorem c2_counterexample :
    (buildOpenAIRequest c2req c2cfg false).max_completion_tokens ≠ some 4096
    ∧ (buildOpenAIRequest c2req c2cfg false).max_completion_tokens = some 64000 := by
  refine ⟨?_, ?_⟩ <;> decide

/-- C2 (amended): the outbound token-limit value — written under
`max_output_tokens` for the Responses shape and `max_completion_tokens`
for the native shape, with the other field unset — always lies in
`[4096, 128000]`; a requested `max_tokens` of `0` is treated as absent
and yields `64000` (not `4096`), `999999` yields `128000`, `8000` yields
`8000`, and an absent `max_tokens` defaults to `64000`. -/
theorem c2_token_clamp (claudeReq : ClaudeReq) (config : AzureConfig)
    (useResponsesAPI : Bool) :
    (∃ n, (if useResponsesAPI then (buildOpenAIRequest claudeReq config useResponsesAPI).max_output_tokens
           else (buildOpenAIRequest claudeReq config useResponsesAPI).max_completion_tokens) = some n
      ∧ 4096 ≤ n ∧ n ≤ 128000)
    ∧ (if useResponsesAPI then (buildOpenAIRequest claudeReq config useResponsesAPI).max_completion_tokens
       else (buildOpenAIRequest claudeReq config useResponsesAPI).max_output_tokens) = none
    ∧ (claudeReq.max_tokens = some 0 →
        (if useResponsesAPI then (buildOpenAIRequest claudeReq config useResponsesAPI).max_output_tokens
         else (buildOpenAIRequest claudeReq config useResponsesAPI).max_completion_tokens) = some 64000)
    ∧ (claudeReq.max_tokens = none →
        (if useResponsesAPI then (buildOpenAIRequest claudeReq config useResponsesAPI).max_output_tokens
         else (buildOpenAIRequest claudeReq config useResponsesAPI).max_completion_tokens) = some 64000)
    ∧ (claudeReq.max_tokens = some 999999 →
        (if useResponsesAPI then (buildOpenAIRequest claudeReq config useResponsesAPI).max_output_tokens
         else (buildOpenAIRequest claudeReq config useResponsesAPI).max_completion_tokens) = some 128000)
    ∧ (claudeReq.max_tokens = some 8000 →
        (if useResponsesAPI then (buildOpenAIRequest claudeReq config useResponsesAPI).max_output_tokens
         else (buildOpenAIRequest claudeReq config useResponsesAPI).max_completion_tokens) = some 8000) := by
  have hf := buildOpenAIRequest_fields claudeReq config useResponsesAPI
  have hval : (if useResponsesAPI then (buildOpenAIRequest claudeReq config useResponsesAPI).max_output_tokens
      else (buildOpenAIRequest claudeReq config useResponsesAPI).max_completion_tokens)
      = some (max 4096 (min (jsOrNat claudeReq.max_tokens 64000) 128000)) := by
    cases useResponsesAPI <;> simp [hf.2.2.1, hf.2.2.2.1]
  have hother : (if useResponsesAPI then (buildOpenAIRequest claudeReq config useResponsesAPI).max_completion_tokens
      else (buildOpenAIRequest claudeReq config useResponsesAPI).max_output_tokens) = none := by
    cases useResponsesAPI <;> simp [hf.2.2.1, hf.2.2.2.1]
  refine ⟨⟨max 4096 (min (jsOrNat claudeReq.max_tokens 64000) 128000), hval, ?_, ?_⟩,
    hother, ?_, ?_, ?_, ?_⟩
  · omega
  · have : 4096 ≤ 128000 := by omega
    omega
  · intro h
    rw [hval, h]
    simp [jsOrNat]
  · intro h
    rw [hval, h]
    simp [jsOrNat]
  · intro h
    rw [hval, h]
    simp [jsOrNat]
  · intro h
    rw [hval, h]
    simp [jsOrNat]

/-- Witness for C2 (amended) at `max_tokens = 8000` on the native shape:
the outbound `max_completion_tokens` is `8000`. -/
theorem c2_token_clamp_witness :
    (buildOpenAIRequest { max_tokens := some 8000 } c2cfg false).max_completion_tokens
      = some 8000 := by
  have h := (c2_token_clamp { max_tokens := some 8000 } c2cfg false).2.2.2.2.2 rfl
  simpa using h

/-! ## Claim C9: non-streaming stop-reason table -/

/-- C9: with a `choices` array present, the client `stop_reason` comes
from the backend `finish_reason` via the fixed table `stop → end_turn`,
`length → max_tokens`, `tool_calls → tool_use`,
`content_filter → end_turn`, default `end_turn` for any other or absent
value. -/
theorem c9_stop_reason_table (openaiRes : OpenAIResp) (model : String) (now : Nat)
    (h : openaiRes.choices ≠ []) :
    ((openaiRes.choices.headD {}).finish_reason = some "stop" →
      (convertResponse openaiRes model now).stop_reason = "end_turn")
    ∧ ((openaiRes.choices.headD {}).finish_reason = some "length" →
      (convertResponse openaiRes model now).stop_reason = "max_tokens")
    ∧ ((openaiRes.choices.headD {}).finish_reason = some "tool_calls" →
      (convertResponse openaiRes model now).stop_reason = "tool_use")
    ∧ ((openaiRes.choices.headD {}).finish_reason = some "content_filter" →
      (convertResponse openaiRes model now).stop_reason = "end_turn")
    ∧ ((openaiRes.choices.headD {}).finish_reason = none →
      (convertResponse openaiRes model now).stop_reason = "end_turn")
    ∧ (∀ s, (openaiRes.choices.headD {}).finish_reason = some s →
      s ≠ "stop" → s ≠ "length" → s ≠ "tool_calls" → s ≠ "content_filter" →
      (convertResponse openaiRes model now).stop_reason = "end_turn") := by
  have hlen : openaiRes.choices.length ≠ 0 := by
    simpa [List.length_eq_zero] using h
  have hsr : (convertResponse openaiRes model now).stop_reason
      = mapStopReason (jsOrStr (openaiRes.choices.headD {}).finish_reason "stop") := by
    rw [convertResponse]
    rw [if_pos hlen]
  refine ⟨?_, ?_, ?_, ?_, ?_, ?_⟩
  · intro hfr
    rw [hsr, hfr]
    simp [jsOrStr, mapStopReason]
  · intro hfr
    rw [hsr, hfr]
    simp [jsOrStr, mapStopReason]
  · intro hfr
    rw [hsr, hfr]
    simp [jsOrStr, mapStopReason]
  · intro hfr
    rw [hsr, hfr]
    simp [jsOrStr, mapStopReason]
  · intro hfr
    rw [hsr, hfr]
    simp [jsOrStr, mapStopReason]
  · intro s hfr h1 h2 h3 h4
    rw [hsr, hfr]
    by_cases hs : s = ""
    · subst hs
      simp [jsOrStr, mapStopReason]
    · simp [jsOrStr, hs, mapStopReason, h1, h2, h3, h4]

/-- Witness for C9 at `finish_reason = "length"`. -/
theorem c9_stop_reason_table_witness :
    (convertResponse { choices := [{ finish_reason := some "length" }] } "m" 0).stop_reason
      = "max_tokens" :=
  (c9_stop_reason_table { choices := [{ finish_reason := some "length" }] } "m" 0
    (by simp)).2.1 rfl

/-! ## Claim C10: Responses shape never streams from the backend -/

/-- Payload adaptation never changes the `stream` field. -/
theorem adaptPayload_stream (path : String) (payload : OpenAIReq) :
    (adaptPayload path payload).stream = payload.stream := by
  unfold adaptPayload
  repeat' split
  all_goals simp

/-- Every accepted attempt of the dispatcher sends a payload whose
`stream` field equals the logical payload's. -/
theorem requestWithFallback_sent_stream :
    ∀ (cands : List Candidate) (payload : OpenAIReq) (fr : FallbackResult),
    (requestWithFallback cands payload).1 = .ok fr →
    fr.sentPayload.stream = payload.stream := by
  intro cands
  induction cands with
  | nil =>
    intro payload fr h
    simp [requestWithFallback] at h
  | cons c rest ih =>
    intro payload fr h
    rcases c with ⟨path, outcome⟩
    rcases outcome with ⟨status, body, data⟩ | m
    · have hred : requestWithFallback (⟨path, Outcome.resp status body data⟩ :: rest) payload
          = (if status = 404 ∧ rest.isEmpty = false then
              ((requestWithFallback rest payload).1, (requestWithFallback rest payload).2 + 1)
            else (.ok { status := status
                        body := body
                        data := data
                        sentPayload := adaptPayload path payload
                        path := path }, 1)) := rfl
      rw [hred] at h
      by_cases hc : status = 404 ∧ rest.isEmpty = false
      · rw [if_pos hc] at h
        exact ih payload fr h
      · rw [if_neg hc] at h
        simp only [Except.ok.injEq] at h
        rw [← h]
        exact adaptPayload_stream path payload
    · have hred : requestWithFallback (⟨path, Outcome.err m⟩ :: rest) payload
          = (if rest.isEmpty = false then
              ((requestWithFallback rest payload).1, (requestWithFallback rest payload).2 + 1)
            else (.error m, 1)) := rfl
      rw [hred] at h
      by_cases hc : rest.isEmpty = false
      · rw [if_pos hc] at h
        exact ih payload fr h
      · rw [if_neg hc] at h
        simp at h

/-- C10: when the Responses shape is selected, the outbound payload
always has `stream = false` (even when the client requested streaming);
the client-facing stream is the synthesized one, a function of the
single non-streaming dispatch result only; and every payload the
dispatcher actually sends (after per-candidate adaptation) still has
`stream = false`. -/
theorem c10_responses_never_streams (claudeReq : ClaudeReq) (azure : AzureConfig)
    (h : useResponsesAPIFor azure claudeReq = true) :
    (outboundRequest claudeReq azure).stream = false
    ∧ (∀ optionsList nativeStatus nativeErrorBody chunks now,
        proxyStreamEvents claudeReq azure optionsList nativeStatus nativeErrorBody chunks now
          = handleStreamingFromNonStreamingEvents optionsList (outboundRequest claudeReq azure)
              (jsOrStr claudeReq.model "") now)
    ∧ (∀ optionsList fr,
        (requestWithFallback optionsList (outboundRequest claudeReq azure)).1 = .ok fr →
        fr.sentPayload.stream = false) := by
  have hstream : (outboundRequest claudeReq azure).stream = false := by
    simp [outboundRequest, h]
  refine ⟨hstream, ?_, ?_⟩
  · intro optionsList nativeStatus nativeErrorBody chunks now
    simp [proxyStreamEvents, h]
  · intro optionsList fr hok
    rw [requestWithFallback_sent_stream optionsList _ fr hok]
    exact hstream

/-- Witness for C10: under the router configuration the outbound payload
has `stream = false` although the client requested streaming. -/
theorem c10_responses_never_streams_witness :
    (outboundRequest c10req c4cfg).stream = false
    ∧ c10req.stream = true :=
  ⟨(c10_responses_never_streams c10req c4cfg (by decide)).1, rfl⟩

/-! ## Claim C8: non-404 backend errors -/

/-- C8: a backend status other than 200 (and in particular other than
404, after fallback) is passed through verbatim — status code and body —
in the non-streaming path; in both streaming paths the error body is
rendered as a single in-band text block followed by the normal close
sequence (`content_block_stop`, `message_delta`, `message_stop`), so the
client's event-stream state machine is never left dangling. -/
theorem c8_error_passthrough :
    (∀ optionsList openaiReq model now fr,
      (requestWithFallback optionsList openaiReq).1 = .ok fr →
      fr.status ≠ 200 → fr.status ≠ 404 → fr.status ≠ 0 →
      handleNonStreaming optionsList openaiReq model now = .passthrough fr.status fr.body)
    ∧ (∀ status errorBody chunks, status ≠ 200 →
      handleStreamingEvents status errorBody chunks
        = [Ev.mstart, Ev.bstartText 0, Ev.bdeltaText 0 ("Error from Azure: " ++ errorBody),
           Ev.bstop 0, Ev.mdelta "end_turn" 0, Ev.mstop])
    ∧ (∀ optionsList openaiReq model now fr,
      (requestWithFallback optionsList openaiReq).1 = .ok fr →
      fr.status ≠ 200 →
      handleStreamingFromNonStreamingEvents optionsList openaiReq model now
        = [Ev.mstart, Ev.bstartText 0, Ev.bdeltaText 0 ("Error from Azure: " ++ fr.body),
           Ev.bstop 0, Ev.mdelta "end_turn" 0, Ev.mstop]) := by
  refine ⟨?_, ?_, ?_⟩
  · intro optionsList openaiReq model now fr hok h200 _ h0
    unfold handleNonStreaming
    rw [hok]
    simp [h200, h0]
  · intro status errorBody chunks h200
    simp [handleStreamingEvents, h200, errorBlockEvents]
  · intro optionsList openaiReq model now fr hok h200
    unfold handleStreamingFromNonStreamingEvents
    rw [hok]
    simp [h200, errorBlockEvents]

/-- Witness for C8: a 429 is passed through verbatim in the
non-streaming path, and rendered in-band in the synthesized streaming
path. -/
theorem c8_error_passthrough_witness :
    handleNonStreaming [c8cand] { model := "m", stream := false } "m" 0
      = .passthrough 429 "quota exceeded"
    ∧ handleStreamingFromNonStreamingEvents [c8cand] { model := "m", stream := false } "m" 0
      = [Ev.mstart, Ev.bstartText 0, Ev.bdeltaText 0 ("Error from Azure: " ++ "quota exceeded"),
         Ev.bstop 0, Ev.mdelta "end_turn" 0, Ev.mstop] := by
  constructor
  · exact c8_error_passthrough.1 [c8cand] { model := "m", stream := false } "m" 0
      { status := 429, body := "quota exceeded", data := {},
        sentPayload := adaptPayload c8cand.path { model := "m", stream := false },
        path := c8cand.path }
      (by rw [requestWithFallback.eq_def]; rfl) (by decide) (by decide) (by decide)
  · exact c8_error_passthrough.2.2 [c8cand] { model := "m", stream := false } "m" 0
      { status := 429, body := "quota exceeded", data := {},
        sentPayload := adaptPayload c8cand.path { model := "m", stream := false },
        path := c8cand.path }
      (by rw [requestWithFallback.eq_def]; rfl) (by decide)

/-- Counterexample to C1 as stated: a transport-level failure is not
raised immediately — the dispatcher advances to the next candidate (two
attempts are made and the second candidate's 200 response is returned,
where the claim demands an immediate raise after one attempt). -/
theorem c1_counterexample :
    (requestWithFallback c1cands c1payload).2 = 2
    ∧ (∃ fr, (requestWithFallback c1cands c1payload).1 = .ok fr
        ∧ fr.status = 200 ∧ fr.body = "ok-body"
        ∧ fr.path = "/openai/deployments/gpt-4o/chat/completions")
    ∧ ∀ m, (requestWithFallback c1cands c1payload).1 ≠ .error m := by
  refine ⟨rfl, ⟨_, rfl, rfl, rfl, rfl⟩, ?_⟩
  intro m h
  rw [show (requestWithFallback c1cands c1payload).1
      = .ok { status := 200, body := "ok-body", data := {},
              sentPayload := adaptPayload "/openai/deployments/gpt-4o/chat/completions" c1payload,
              path := "/openai/deployments/gpt-4o/chat/completions" } from rfl] at h
  exact Except.noConfusion h

/-- C1 (amended): candidates are attempted strictly in order; a `404`
advances silently to the next candidate, and a `404` on the last
candidate is returned as the final result; any other HTTP status is
returned immediately without attempting the next candidate; a
transport-level failure advances to the next candidate, and is raised
only when it occurs on the last candidate; and for a list whose every
candidate except the last answers `404`, the result comes from the last
candidate with exactly as many attempts as candidates — in general,
exactly as many attempts as candidates up to and including the first
outcome that is not a non-final 404 (and not a non-final transport
failure). -/
theorem c1_fallback_discipline :
    (∀ (pre : List Candidate) (c : Candidate) (post : List Candidate) (payload : OpenAIReq)
      (s : Nat) (b : String) (d : OpenAIResp),
      (∀ p ∈ pre, ∃ body data, p.outcome = .resp 404 body data) →
      c.outcome = .resp s b d → s ≠ 404 →
      (requestWithFallback (pre ++ c :: post) payload).1
        = .ok { status := s, body := b, data := d,
                sentPayload := adaptPayload c.path payload, path := c.path }
      ∧ (requestWithFallback (pre ++ c :: post) payload).2 = pre.length + 1)
    ∧ (∀ (pre : List Candidate) (c : Candidate) (payload : OpenAIReq)
      (s : Nat) (b : String) (d : OpenAIResp),
      (∀ p ∈ pre, ∃ body data, p.outcome = .resp 404 body data) →
      c.outcome = .resp s b d →
      (requestWithFallback (pre ++ [c]) payload).1
        = .ok { status := s, body := b, data := d,
                sentPayload := adaptPayload c.path payload, path := c.path }
      ∧ (requestWithFallback (pre ++ [c]) payload).2 = pre.length + 1)
    ∧ (∀ (c : Candidate) (rest : List Candidate) (payload : OpenAIReq) (m : String),
      c.outcome = .err m → rest ≠ [] →
      requestWithFallback (c :: rest) payload
        = ((requestWithFallback rest payload).1, (requestWithFallback rest payload).2 + 1))
    ∧ (∀ (c : Candidate) (payload : OpenAIReq) (m : String),
      c.outcome = .err m →
      requestWithFallback [c] payload = (.error m, 1)) := by
  have h404step : ∀ (p : Candidate) (rest : List Candidate) (payload : OpenAIReq)
      (body : String) (data : OpenAIResp), p.outcome = .resp 404 body data → rest ≠ [] →
      requestWithFallback (p :: rest) payload
        = ((requestWithFallback rest payload).1, (requestWithFallback rest payload).2 + 1) := by
    intro p rest payload body data hp hrest
    rcases p with ⟨path, outcome⟩
    simp only at hp
    subst hp
    have hre : rest.isEmpty = false := by
      rcases rest with _ | ⟨r, rs⟩
      · exact absurd rfl hrest
      · rfl
    rw [requestWithFallback.eq_def]
    simp [hre]
  have himmediate : ∀ (pre : List Candidate) (c : Candidate) (post : List Candidate)
      (payload : OpenAIReq) (s : Nat) (b : String) (d : OpenAIResp),
      (∀ p ∈ pre, ∃ body data, p.outcome = .resp 404 body data) →
      c.outcome = .resp s b d → (s = 404 → post = []) →
      (requestWithFallback (pre ++ c :: post) payload).1
        = .ok { status := s, body := b, data := d,
                sentPayload := adaptPayload c.path payload, path := c.path }
      ∧ (requestWithFallback (pre ++ c :: post) payload).2 = pre.length + 1 := by
    intro pre
    induction pre with
    | nil =>
      intro c post payload s b d _ hc hs
      rcases c with ⟨path, outcome⟩
      simp only at hc
      subst hc
      have hcond : ¬(s = 404 ∧ post.isEmpty = false) := by
        rintro ⟨h4, hne⟩
        rcases post with _ | ⟨p, ps⟩
        · simp at hne
        · simpa using hs h4
      rw [List.nil_append, requestWithFallback.eq_def]
      simp only [if_neg hcond]
      constructor <;> trivial
    | cons p pre ih =>
      intro c post payload s b d hpre hc hs
      obtain ⟨body0, data0, hp⟩ := hpre p (by simp)
      have hrest : pre ++ c :: post ≠ [] := by simp
      have hstep := h404step p (pre ++ c :: post) payload body0 data0 hp hrest
      rw [List.cons_append, hstep]
      have := ih c post payload s b d (fun q hq => hpre q (by simp [hq])) hc hs
      refine ⟨this.1, ?_⟩
      rw [this.2]
      simp
  refine ⟨?_, ?_, ?_, ?_⟩
  · intro pre c post payload s b d hpre hc hs
    exact himmediate pre c post payload s b d hpre hc (fun h4 => absurd h4 hs)
  · intro pre c payload s b d hpre hc
    exact himmediate pre c [] payload s b d hpre hc (fun _ => rfl)
  · intro c rest payload m hc hrest
    rcases c with ⟨path, outcome⟩
    simp only at hc
    subst hc
    have hre : rest.isEmpty = false := by
      rcases rest with _ | ⟨r, rs⟩
      · exact absurd rfl hrest
      · rfl
    rw [requestWithFallback.eq_def]
    simp [hre]
  · intro c payload m hc
    rcases c with ⟨path, outcome⟩
    simp only at hc
    subst hc
    rw [requestWithFallback.eq_def]
    simp

/-- Witness for C1 (amended): two 404 candidates then a 200 candidate —
the result comes from the last candidate with exactly three attempts. -/
theorem c1_fallback_discipline_witness :
    (requestWithFallback
      [{ path := "/a", outcome := .resp 404 "nf" {} },
       { path := "/b", outcome := .resp 404 "nf" {} },
       { path := "/c", outcome := .resp 200 "ok" {} }] { model := "m", stream := false }).1
      = .ok { status := 200, body := "ok", data := {},
              sentPayload := adaptPayload "/c" { model := "m", stream := false }, path := "/c" }
    ∧ (requestWithFallback
      [{ path := "/a", outcome := .resp 404 "nf" {} },
       { path := "/b", outcome := .resp 404 "nf" {} },
       { path := "/c", outcome := .resp 200 "ok" {} }] { model := "m", stream := false }).2 = 3 := by
  have h := c1_fallback_discipline.2.1
    [{ path := "/a", outcome := .resp 404 "nf" {} },
     { path := "/b", outcome := .resp 404 "nf" {} }]
    { path := "/c", outcome := .resp 200 "ok" {} } { model := "m", stream := false }
    200 "ok" {} (by intro p hp; fin_cases hp <;> exact ⟨"nf", {}, rfl⟩) rfl
  exact ⟨h.1, h.2⟩

/-! ## Claim C5: end-of-stream flush -/

/-- `List.contains` on `Nat` agrees with membership. -/
theorem contains_iff_mem_nat (l : List Nat) (a : Nat) : l.contains a = true ↔ a ∈ l :=
  List.elem_iff

/-- C5 counterexample: on `cex5` a text block is opened and closed during
the stream (one block-start among the chunk events), yet the flush still
synthesizes the "empty text block", reusing index 0 — the code's
condition is "no block currently open and no tool block ever started",
not the claim's "no block was ever opened". -/
theorem c5_counterexample :
    handleStreamingEvents 200 "" cex5
      = [Ev.mstart, Ev.bstartText 0, Ev.bdeltaText 0 "hi", Ev.bstop 0,
         Ev.bstartText 0, Ev.bstop 0, Ev.mdelta "end_turn" 0, Ev.mstop]
    ∧ (chunkEvents cex5).countP isStart = 1
    ∧ flushEvents (finalState cex5)
        = [Ev.bstartText 0, Ev.bstop 0, Ev.mdelta "end_turn" 0, Ev.mstop] := by
  refine ⟨?_, ?_, ?_⟩ <;> rfl

/-- C5 (amended): at the end of a native backend stream that opened with
status 200, the handler emits the chunk-loop events followed by a flush;
the flush emits `content_block_stop` for exactly the still-open block
indices — plus index 0 when no block is open and no tool block was ever
started, in which case the flush is exactly the synthesized empty text
block (start then stop at index 0) followed by the close pair; and in
every case the flush ends with exactly one `message_delta` carrying the
mapped stop reason and final output-token count followed by exactly one
`message_stop`, with neither event occurring earlier in the flush. -/
theorem c5_stream_end_close :
    (∀ (errBody : String) (chunks : List Chunk),
       handleStreamingEvents 200 errBody chunks
         = Ev.mstart :: (chunkEvents chunks ++ flushEvents (finalState chunks)))
    ∧ (∀ (s : SState) (i : Nat),
         Ev.bstop i ∈ flushEvents s ↔ isOpenIdx s i ∨ (noneOpen s ∧ i = 0))
    ∧ (∀ s : SState, noneOpen s →
         flushEvents s
           = [Ev.bstartText 0, Ev.bstop 0,
              Ev.mdelta s.finishReason s.outputTokens, Ev.mstop])
    ∧ (∀ s : SState, ∃ pre : List Ev,
         flushEvents s = pre ++ [Ev.mdelta s.finishReason s.outputTokens, Ev.mstop]
           ∧ (∀ r t, Ev.mdelta r t ∉ pre) ∧ Ev.mstop ∉ pre) := by
  refine ⟨?_, ?_, ?_, ?_⟩
  · intro errBody chunks
    simp [handleStreamingEvents]
  · intro s i
    rcases s with ⟨tb, cbi, tcs, tbs, ot, fr⟩
    simp only [flushEvents, isOpenIdx, noneOpen]
    cases tb with
    | false =>
      by_cases htbs : tbs = []
      · subst htbs
        simp
      · simp [htbs]
    | true =>
      by_cases hmem : cbi ∈ tbs
      · simp [hmem]
        rintro rfl
        exact hmem
      · simp [hmem]
        tauto
  · intro s hn
    have h1 : s.textBlockStarted = false := hn.1
    have h2 : s.toolBlocksStarted = [] := hn.2
    simp [flushEvents, h1, h2]
  · intro s
    refine ⟨(if s.textBlockStarted ∧ s.toolBlocksStarted.contains s.currentBlockIndex = false
        then [Ev.bstop s.currentBlockIndex] else [])
      ++ s.toolBlocksStarted.map Ev.bstop
      ++ (if s.textBlockStarted = false ∧ s.toolBlocksStarted = [] then
            [Ev.bstartText 0, Ev.bstop 0] else []), ?_, ?_, ?_⟩
    · simp [flushEvents, List.append_assoc]
    · intro r t
      simp only [List.mem_append, List.mem_map]
      split <;> split <;> simp
    · simp only [List.mem_append, List.mem_map]
      split <;> split <;> simp

/-- Witness for C5 (amended): from the initial state (nothing open,
nothing ever started) the flush is exactly the synthesized empty text
block followed by the close pair. -/
theorem c5_stream_end_close_witness :
    noneOpen initState ∧
      flushEvents initState
        = [Ev.bstartText 0, Ev.bstop 0, Ev.mdelta "end_turn" 0, Ev.mstop] :=
  ⟨⟨rfl, rfl⟩, c5_stream_end_close.2.2.1 initState ⟨rfl, rfl⟩⟩

/-- One-step reduction of the checker at a text block-start. -/
theorem wfAux_startText (lo i : Nat) (rest : List Ev) :
    wfAux none lo (Ev.bstartText i :: rest)
      = (decide (lo ≤ i) && wfAux (some i) (i + 1) rest) := rfl

/-- One-step reduction of the checker at a tool block-start. -/
theorem wfAux_startTool (lo i : Nat) (id name : String) (rest : List Ev) :
    wfAux none lo (Ev.bstartTool i id name :: rest)
      = (decide (lo ≤ i) && wfAux (some i) (i + 1) rest) := rfl

/-- One-step reduction of the checker at a text delta. -/
theorem wfAux_deltaText (i lo j : Nat) (c : String) (rest : List Ev) :
    wfAux (some i) lo (Ev.bdeltaText j c :: rest)
      = ((j == i) && wfAux (some i) lo rest) := rfl

/-- One-step reduction of the checker at a JSON delta. -/
theorem wfAux_deltaJson (i lo j : Nat) (c : String) (rest : List Ev) :
    wfAux (some i) lo (Ev.bdeltaJson j c :: rest)
      = ((j == i) && wfAux (some i) lo rest) := rfl

/-- One-step reduction of the checker at a block-stop. -/
theorem wfAux_stopStep (i lo j : Nat) (rest : List Ev) :
    wfAux (some i) lo (Ev.bstop j :: rest)
      = ((j == i) && wfAux none lo rest) := rfl

/-- The checker accepts the final close pair. -/
theorem wfAux_done (lo : Nat) (r : String) (t : Nat) :
    wfAux none lo [Ev.mdelta r t, Ev.mstop] = true := rfl

/-- `wellFormed` on a `message_start`-headed stream is the checker on its
tail. -/
theorem wellFormed_mstart (rest : List Ev) :
    wellFormed (Ev.mstart :: rest) = wfAux none 0 rest := rfl

/-- Everything a `wfAux`-accepted suffix guarantees: stops outnumber
starts by exactly the carried open block, every start index is at least
the low-water mark, start indices are strictly increasing, and the
suffix ends with exactly one `message_delta` then `message_stop`. -/
theorem wfAux_spec (ob : Option Nat) (lo : Nat) (evs : List Ev)
    (h : wfAux ob lo evs = true) :
    evs.countP isStop = evs.countP isStart + carryOf ob
    ∧ (∀ i ∈ startIndices evs, lo ≤ i)
    ∧ (startIndices evs).Pairwise (fun a b => a < b)
    ∧ ∃ (pre : List Ev) (r : String) (t : Nat),
        evs = pre ++ [Ev.mdelta r t, Ev.mstop]
        ∧ (∀ r' t', Ev.mdelta r' t' ∉ pre) ∧ Ev.mstop ∉ pre ∧ Ev.mstart ∉ pre := by
  induction ob, lo, evs using wfAux.induct with
  | case1 lo r t =>
    refine ⟨?_, ?_, ?_, [], r, t, rfl, ?_, ?_, ?_⟩ <;>
      simp [startIndices, isStop, isStart, carryOf, List.countP_cons]
  | case2 lo i rest ih =>
    rw [wfAux.eq_def] at h
    simp at h
    obtain ⟨hlo, hrec⟩ := h
    obtain ⟨hc, hb, hp, pre, r, t, heq, hnd, hns, hnm⟩ := ih hrec
    refine ⟨?_, ?_, ?_, Ev.bstartText i :: pre, r, t, ?_, ?_, ?_, ?_⟩
    · simp [List.countP_cons, isStop, isStart, carryOf] at hc ⊢
      omega
    · intro j hj
      simp only [startIndices, List.mem_cons] at hj
      rcases hj with rfl | hj
      · exact hlo
      · have := hb j hj
        omega
    · simp only [startIndices]
      rw [List.pairwise_cons]
      exact ⟨fun j hj => by have := hb j hj; omega, hp⟩
    · simp [heq]
    · intro r' t'
      simp [hnd r' t']
    · simp [hns]
    · simp [hnm]
  | case3 lo i id name rest ih =>
    rw [wfAux.eq_def] at h
    simp at h
    obtain ⟨hlo, hrec⟩ := h
    obtain ⟨hc, hb, hp, pre, r, t, heq, hnd, hns, hnm⟩ := ih hrec
    refine ⟨?_, ?_, ?_, Ev.bstartTool i id name :: pre, r, t, ?_, ?_, ?_, ?_⟩
    · simp [List.countP_cons, isStop, isStart, carryOf] at hc ⊢
      omega
    · intro j hj
      simp only [startIndices, List.mem_cons] at hj
      rcases hj with rfl | hj
      · exact hlo
      · have := hb j hj
        omega
    · simp only [startIndices]
      rw [List.pairwise_cons]
      exact ⟨fun j hj => by have := hb j hj; omega, hp⟩
    · simp [heq]
    · intro r' t'
      simp [hnd r' t']
    · simp [hns]
    · simp [hnm]
  | case4 i lo j c rest ih =>
    rw [wfAux.eq_def] at h
    simp at h
    obtain ⟨-, hrec⟩ := h
    obtain ⟨hc, hb, hp, pre, r, t, heq, hnd, hns, hnm⟩ := ih hrec
    refine ⟨?_, ?_, ?_, Ev.bdeltaText j c :: pre, r, t, ?_, ?_, ?_, ?_⟩
    · simp [List.countP_cons, isStop, isStart, carryOf] at hc ⊢
      omega
    · simpa [startIndices] using hb
    · simpa [startIndices] using hp
    · simp [heq]
    · intro r' t'
      simp [hnd r' t']
    · simp [hns]
    · simp [hnm]
  | case5 i lo j c rest ih =>
    rw [wfAux.eq_def] at h
    simp at h
    obtain ⟨-, hrec⟩ := h
    obtain ⟨hc, hb, hp, pre, r, t, heq, hnd, hns, hnm⟩ := ih hrec
    refine ⟨?_, ?_, ?_, Ev.bdeltaJson j c :: pre, r, t, ?_, ?_, ?_, ?_⟩
    · simp [List.countP_cons, isStop, isStart, carryOf] at hc ⊢
      omega
    · simpa [startIndices] using hb
    · simpa [startIndices] using hp
    · simp [heq]
    · intro r' t'
      simp [hnd r' t']
    · simp [hns]
    · simp [hnm]
  | case6 i lo j rest ih =>
    rw [wfAux.eq_def] at h
    simp at h
    obtain ⟨-, hrec⟩ := h
    obtain ⟨hc, hb, hp, pre, r, t, heq, hnd, hns, hnm⟩ := ih hrec
    refine ⟨?_, ?_, ?_, Ev.bstop j :: pre, r, t, ?_, ?_, ?_, ?_⟩
    · simp [List.countP_cons, isStop, isStart, carryOf] at hc ⊢
      omega
    · simpa [startIndices] using hb
    · simpa [startIndices] using hp
    · simp [heq]
    · intro r' t'
      simp [hnd r' t']
    · simp [hns]
    · simp [hnm]
  | case7 evs ob lo hn1 hn2 hn3 hn4 hn5 hn6 =>
    rw [wfAux.eq_def] at h
    split at h <;>
      first
        | exact Bool.noConfusion h
        | (exfalso; solve_by_elim)

/-- The error rendering always satisfies the checker. -/
theorem wfAux_errorBlock (m : String) :
    wfAux none 0 (errorBlockEvents m) = true := rfl

/-- The synthesized per-block cycles, from any low-water mark equal to
the first block's index, satisfy the checker down to the close pair. -/
theorem wfAux_respBlockEvents (blocks : List CRBlock) (lo : Nat) (r : String) (t : Nat) :
    wfAux none lo (respBlockEvents lo blocks ++ [Ev.mdelta r t, Ev.mstop]) = true := by
  induction blocks generalizing lo with
  | nil => rfl
  | cons b rest ih =>
    cases b with
    | text s =>
      simp [respBlockEvents, wfAux_startText, wfAux_deltaText, wfAux_stopStep, ih]
    | toolUse id name input =>
      simp [respBlockEvents, wfAux_startTool, wfAux_deltaJson, wfAux_stopStep, ih]

/-- The content-plus-close section of the synthesized stream satisfies
the checker from the initial state. -/
theorem wfAux_synthBody (response : ClaudeResponse) :
    wfAux none 0 (respContentEvents response ++ synthCloseEvents response) = true := by
  rw [respContentEvents]
  split
  · rfl
  · exact wfAux_respBlockEvents response.content 0 _ _

/-- The whole synthesized stream is grammatical, whatever the dispatcher
returned. -/
theorem wf_synth_stream (optionsList : List Candidate) (openaiReq : OpenAIReq)
    (model : String) (now : Nat) :
    wellFormed (handleStreamingFromNonStreamingEvents optionsList openaiReq model now) = true := by
  rw [handleStreamingFromNonStreamingEvents, wellFormed_mstart]
  split
  · exact wfAux_errorBlock _
  next result heq =>
    by_cases hs : result.status ≠ 200
    · rw [if_pos hs]
      exact wfAux_errorBlock _
    · rw [if_neg hs]
      exact wfAux_synthBody _

/-- What one chunk does on the no-tool-calls path: block index and
started-tool-block set are untouched, and the events are nothing, one
text delta into the open block, or a text block-start followed by one
delta. -/
theorem processChunk_noTool (s : SState) (ch : Chunk)
    (h : ∀ c ∈ ch.choices, c.tool_calls = none) :
    (processChunk s ch).1.currentBlockIndex = s.currentBlockIndex
    ∧ (processChunk s ch).1.toolBlocksStarted = s.toolBlocksStarted
    ∧ (((processChunk s ch).1.textBlockStarted = s.textBlockStarted
          ∧ (processChunk s ch).2 = [])
       ∨ (s.textBlockStarted = true ∧ (processChunk s ch).1.textBlockStarted = true
          ∧ ∃ c, (processChunk s ch).2 = [Ev.bdeltaText s.currentBlockIndex c])
       ∨ (s.textBlockStarted = false ∧ (processChunk s ch).1.textBlockStarted = true
          ∧ ∃ c, (processChunk s ch).2
              = [Ev.bstartText s.currentBlockIndex, Ev.bdeltaText s.currentBlockIndex c])) := by
  rcases hch : ch.choices with _ | ⟨choice, rest2⟩
  · simp [processChunk, hch]
  · have htc : choice.tool_calls = none := h choice (by rw [hch]; exact List.mem_cons_self _ _)
    rcases hfr : choice.finish_reason with _ | fr <;>
      rcases hcont : choice.content with _ | c <;>
        rcases hu : ch.usage with _ | u <;>
          cases htb : s.textBlockStarted <;>
            simp [processChunk, hch, htc, hfr, hcont, hu, htb] <;>
              split_ifs <;> simp_all

/-- On the no-tool-calls path the chunk loop plus flush satisfies the
checker from the state matching the current relay state. -/
theorem processAll_noTool (chunks : List Chunk) :
    ∀ s : SState, s.toolBlocksStarted = []
      → (s.textBlockStarted = false → s.currentBlockIndex = 0)
      → (∀ ch ∈ chunks, ∀ c ∈ ch.choices, c.tool_calls = none)
      → wfAux (obOf s) (loOf s)
          ((processAll s chunks).2 ++ flushEvents (processAll s chunks).1) = true := by
  induction chunks with
  | nil =>
    intro s htbs hcbi _
    cases htb : s.textBlockStarted
    · have hc0 : s.currentBlockIndex = 0 := hcbi htb
      simp [processAll, flushEvents, obOf, loOf, htb, htbs, hc0, wfAux_startText,
        wfAux_stopStep, wfAux_done]
    · simp [processAll, flushEvents, obOf, loOf, htb, htbs, wfAux_stopStep, wfAux_done]
  | cons ch rest ih =>
    intro s htbs hcbi hnt
    have hch : ∀ c ∈ ch.choices, c.tool_calls = none := hnt ch (List.mem_cons_self _ _)
    have hrest : ∀ ch' ∈ rest, ∀ c ∈ ch'.choices, c.tool_calls = none :=
      fun ch' h' => hnt ch' (List.mem_cons_of_mem _ h')
    obtain ⟨hcb, htb2, hdisj⟩ := processChunk_noTool s ch hch
    rcases hpc : processChunk s ch with ⟨s1, evs1⟩
    rw [hpc] at hcb htb2 hdisj
    simp only at hcb htb2 hdisj
    have htbs1 : s1.toolBlocksStarted = [] := by rw [htb2, htbs]
    have hmain : wfAux (obOf s1) (loOf s1)
        ((processAll s1 rest).2 ++ flushEvents (processAll s1 rest).1) = true := by
      apply ih s1 htbs1 ?_ hrest
      intro htb1f
      rcases hdisj with ⟨he, -⟩ | ⟨-, he, -⟩ | ⟨-, he, -⟩ <;> rw [htb1f] at he
      · rw [hcb]
        exact hcbi he.symm
      · exact Bool.noConfusion he
      · exact Bool.noConfusion he
    have hred : processAll s (ch :: rest)
        = ((processAll s1 rest).1, evs1 ++ (processAll s1 rest).2) := by
      rw [processAll.eq_def]
      simp [hpc]
    rw [hred]
    simp only [List.append_assoc]
    rcases hdisj with ⟨he, hevs⟩ | ⟨hsb, he, c, hevs⟩ | ⟨hsb, he, c, hevs⟩
    · have hob : obOf s1 = obOf s := by simp [obOf, he, hcb]
      have hlo : loOf s1 = loOf s := by simp [loOf, he, hcb]
      rw [hevs]
      simpa [hob, hlo] using hmain
    · rw [hevs]
      have hob : obOf s1 = some s.currentBlockIndex := by simp [obOf, he, hcb]
      have hlo : loOf s1 = s.currentBlockIndex + 1 := by simp [loOf, he, hcb]
      have hob0 : obOf s = some s.currentBlockIndex := by simp [obOf, hsb]
      have hlo0 : loOf s = s.currentBlockIndex + 1 := by simp [loOf, hsb]
      rw [hob, hlo] at hmain
      simp [hob0, hlo0, wfAux_deltaText, hmain]
    · rw [hevs]
      have hob : obOf s1 = some s.currentBlockIndex := by simp [obOf, he, hcb]
      have hlo : loOf s1 = s.currentBlockIndex + 1 := by simp [loOf, he, hcb]
      have hob0 : obOf s = none := by simp [obOf, hsb]
      have hlo0 : loOf s = s.currentBlockIndex := by simp [loOf, hsb]
      rw [hob, hlo] at hmain
      simp [hob0, hlo0, wfAux_startText, wfAux_deltaText, hmain]

/-- C3 counterexample: on the native relay path, `cex3` produces two
block-starts that reuse index 0 and only one block-stop, so the claimed
equal-counts and never-reused-indices invariants fail on the native
path (the stream is rejected by the grammar checker). -/
theorem c3_counterexample :
    handleStreamingEvents 200 "" cex3
      = [Ev.mstart, Ev.bstartTool 0 "a" "f", Ev.bdeltaJson 0 "\x7b\x7d",
         Ev.bstartText 0, Ev.bdeltaText 0 "hi", Ev.bstop 0,
         Ev.mdelta "end_turn" 0, Ev.mstop]
    ∧ wellFormed (handleStreamingEvents 200 "" cex3) = false
    ∧ (handleStreamingEvents 200 "" cex3).countP isStart = 2
    ∧ (handleStreamingEvents 200 "" cex3).countP isStop = 1 := by
  refine ⟨?_, ?_, ?_, ?_⟩ <;> rfl

/-- C3 (amended): the grammar checker `wellFormed` captures the claimed
stream invariants — acceptance implies equal start/stop counts, strictly
increasing never-reused block indices, and `message_delta` and
`message_stop` exactly once as the final two events; the synthesized
path always passes the checker; the native path passes it when the
initial status is non-200 (in-band error rendering) and on every stream
whose chunks carry no tool calls — but not on every stream with tool
calls, see the counterexample. -/
theorem c3_stream_grammar :
    (∀ evs : List Ev, wellFormed evs = true →
       evs.countP isStop = evs.countP isStart
       ∧ (startIndices evs).Pairwise (fun a b => a < b)
       ∧ ∃ (pre : List Ev) (r : String) (t : Nat),
           evs = Ev.mstart :: (pre ++ [Ev.mdelta r t, Ev.mstop])
           ∧ (∀ r' t', Ev.mdelta r' t' ∉ pre) ∧ Ev.mstop ∉ pre)
    ∧ (∀ (optionsList : List Candidate) (openaiReq : OpenAIReq) (model : String) (now : Nat),
         wellFormed (handleStreamingFromNonStreamingEvents optionsList openaiReq model now) = true)
    ∧ (∀ (status : Nat) (errBody : String) (chunks : List Chunk), status ≠ 200 →
         wellFormed (handleStreamingEvents status errBody chunks) = true)
    ∧ (∀ (errBody : String) (chunks : List Chunk),
         (∀ ch ∈ chunks, ∀ c ∈ ch.choices, c.tool_calls = none) →
         wellFormed (handleStreamingEvents 200 errBody chunks) = true) := by
  refine ⟨?_, wf_synth_stream, ?_, ?_⟩
  · intro evs h
    rcases evs with _ | ⟨e, rest⟩
    · rw [wellFormed.eq_def] at h
      simp at h
    · cases e <;> rw [wellFormed.eq_def] at h <;> simp at h
      obtain ⟨hc, -, hp, pre, r, t, heq, hnd, hns, -⟩ := wfAux_spec none 0 rest h
      refine ⟨?_, ?_, pre, r, t, ?_, hnd, hns⟩
      · simp [List.countP_cons, isStop, isStart, carryOf] at hc ⊢
        omega
      · simpa [startIndices] using hp
      · rw [heq]
  · intro status errBody chunks hst
    rw [handleStreamingEvents, wellFormed_mstart, if_pos hst]
    exact wfAux_errorBlock _
  · intro errBody chunks hnt
    rw [handleStreamingEvents, wellFormed_mstart, if_neg (by simp)]
    have := processAll_noTool chunks initState rfl (fun _ => rfl) hnt
    simpa [obOf, loOf, initState, chunkEvents, finalState] using this

/-- Witness for C3 (amended): a single text-content chunk with no tool
calls — the native relay's stream passes the grammar checker. -/
theorem c3_stream_grammar_witness :
    (∀ ch ∈ [({ choices := [{ content := some "hi" }] } : Chunk)],
       ∀ c ∈ ch.choices, c.tool_calls = none)
    ∧ wellFormed (handleStreamingEvents 200 ""
        [({ choices := [{ content := some "hi" }] } : Chunk)]) = true :=
  ⟨by decide,
   c3_stream_grammar.2.2.2 "" [({ choices := [{ content := some "hi" }] } : Chunk)] (by decide)⟩

/-! ## Claim C6: tool-call roundtrip -/

/-- `stringify` never returns the empty string. -/
theorem stringify_ne_empty (j : Json) : stringify j ≠ "" := by
  obtain ⟨c, tail, hc, -, -, -⟩ := stringify_head j
  intro h
  have hd : (stringify j).data = ([] : List Char) := by rw [h]
  rw [show (stringify j).data = stringifyChars j from rfl, hc] at hd
  exact List.noConfusion hd

/-- `s || ''` on a present string is the identity. -/
theorem jsOrStr_some_empty (s : String) : jsOrStr (some s) "" = s := by
  by_cases h : s = "" <;> simp [jsOrStr, h]

/-- C6: a history holding an assistant message with `tool_use` blocks
registers as tool usage; the forward mapping translates it
message-by-message, turning that message into one native-shape entry
whose `tool_calls` serialize each invocation's id, name, and
JSON-stringified input; and reverse-translating a synthetic backend
reply carrying those same `tool_calls` recovers every invocation's
original id, name, and input structure (inputs being JSON objects, as
the client shape requires), with stop reason `tool_use`. -/
theorem c6_tool_roundtrip (pre post : List ClaudeMessage) (msg : ClaudeMessage)
    (system : Option SystemField) (content : List ClaudeBlock)
    (model : String) (now : Nat) (tus : List ToolUseBlock)
    (hrole : msg.role = some "assistant")
    (hcontent : msg.content = ClaudeContent.blocks content)
    (htus : tus = toolUseBlocksOf content)
    (hne : tus.isEmpty = false)
    (hobj : ∀ tb ∈ tus, ∃ fields, tb.input = Json.obj fields) :
    hasToolUsage (pre ++ msg :: post) = true
    ∧ convertMessages (pre ++ msg :: post) system false
        = convertMessages pre system false
          ++ convertOneMessage msg false
          ++ post.flatMap (fun m => convertOneMessage m false)
    ∧ (∃ textContent : OAIContent,
        convertOneMessage msg false
          = [{ role := "assistant", content := textContent,
               tool_calls := some (forwardToolCalls tus) }])
    ∧ (convertResponse (syntheticReply (forwardToolCalls tus)) model now).content
        = tus.map (fun tb => CRBlock.toolUse tb.id tb.name tb.input)
    ∧ (convertResponse (syntheticReply (forwardToolCalls tus)) model now).stop_reason
        = "tool_use" := by
  have hlen : tus.length > 0 := by
    rcases tus with _ | ⟨tb0, rest0⟩
    · simp at hne
    · simp
  refine ⟨?_, ?_, ?_, ?_, ?_⟩
  · obtain ⟨tb0, htb0⟩ : ∃ tb, tb ∈ tus := by
      rcases tus with _ | ⟨tb0, rest0⟩
      · simp at hne
      · exact ⟨tb0, List.mem_cons_self _ _⟩
    rw [htus, toolUseBlocksOf] at htb0
    obtain ⟨b, hb, hfb⟩ := List.mem_filterMap.mp htb0
    rw [hasToolUsage, List.any_eq_true]
    refine ⟨msg, by simp, ?_⟩
    simp only [hcontent]
    rw [List.any_eq_true]
    refine ⟨b, hb, ?_⟩
    cases b <;> simp_all [blockType]
  · simp [convertMessages, List.flatMap_append, List.flatMap_cons, List.append_assoc]
  · refine ⟨if joinedText (textPartsOf content false "assistant") = "" then OAIContent.nullContent
      else OAIContent.str (joinedText (textPartsOf content false "assistant")), ?_⟩
    rw [convertOneMessage]
    simp only [hrole, hcontent]
    rw [show jsOrStr (some "assistant") "user" = "assistant" from rfl]
    rw [← htus, if_pos ⟨rfl, hlen⟩]
    rw [if_neg Bool.false_ne_true]
    rfl
  · rw [convertResponse]
    rw [if_pos (show (syntheticReply (forwardToolCalls tus)).choices.length ≠ 0 by
      simp [syntheticReply])]
    simp only [syntheticReply, syntheticReplyMsg, syntheticReplyTC, forwardToolCalls,
      List.headD_cons, Option.getD_some, List.map_map, List.nil_append]
    apply List.map_congr_left
    intro tb htb
    obtain ⟨fields, hf⟩ := hobj tb htb
    simp [syntheticReplyTC, hf, jsOrStr, jsOrJson, jsTruthy,
      stringify_ne_empty (Json.obj fields), parseJson_stringify]
    exact ⟨fun h => h.symm, fun h => h.symm⟩
  · rfl

/-- Witness for C6: one assistant message with one `tool_use` block —
the synthetic reply's reverse translation recovers the id, name, and
input object, and the history registers as tool usage. -/
theorem c6_tool_roundtrip_witness :
    hasToolUsage [c6msg] = true
    ∧ (convertResponse (syntheticReply (forwardToolCalls [c6tb])) "m" 0).content
        = [CRBlock.toolUse "call_1" "get_weather" (Json.obj [("city", Json.str "Paris")])]
    ∧ (convertResponse (syntheticReply (forwardToolCalls [c6tb])) "m" 0).stop_reason
        = "tool_use" := by
  have h := c6_tool_roundtrip [] [] c6msg none [ClaudeBlock.toolUse c6tb] "m" 0 [c6tb]
    rfl rfl rfl rfl
    (by intro tb htb
        simp only [List.mem_singleton] at htb
        subst htb
        exact ⟨[("city", Json.str "Paris")], rfl⟩)
  exact ⟨h.1, h.2.2.2.1, h.2.2.2.2⟩

end ClaudeAzure

